import Mathlib

/-!
# Order-ingestion pipeline: orders-api (producer) and orders-worker (consumer)

A shallow embedding of `app/orders-api/main.go` and `app/orders-worker/main.go`.

* Go strings and byte slices are modelled as sequences of Unicode scalar values
  (`String` / `List Char`), i.e. as well-formed UTF-8.
* The standard library package `encoding/json` is modelled by an executable
  scanner/decoder (`GoJSON`) that follows the behaviour of `json.Marshal`,
  `json.Unmarshal` and `(*json.Decoder).Decode` for the two struct types used here.
* The external collaborators (PostgreSQL behind `database/sql`, RabbitMQ behind
  `amqp091-go`) are explicit state machines passed as parameters.
* Prometheus counters are natural numbers; a `CounterVec` is a function from label
  values to a natural number.
* A Go slice that may be nil is an `Option (List α)`, with `none` the nil slice; a
  `time.Time` is kept as its RFC 3339 text.
* Wall-clock time (timeouts, the duration histogram, log timestamps) is not modelled.
-/

namespace GoJSON

/-- A JSON document as produced by the scanner of `encoding/json`. Numbers keep their
literal text, because the decoder hands that text to `strconv.ParseInt`. -/
inductive Value where
  | null
  | bool (b : Bool)
  | number (lit : List Char)
  | string (s : List Char)
  | array (elems : List Value)
  | object (members : List (List Char × Value))

/-- The scanner's `isSpace`: space, tab, carriage return, line feed. -/
def isSpace (c : Char) : Bool :=
  c = ' ' || c = '\t' || c = '\r' || c = '\n'

/-- Drop leading JSON whitespace. -/
def skipSpace : List Char → List Char
  | [] => []
  | c :: cs => if isSpace c then skipSpace cs else c :: cs

/-- Decimal digit test. -/
def isDigit (c : Char) : Bool := '0'.toNat ≤ c.toNat && c.toNat ≤ '9'.toNat

/-- Value of a hexadecimal digit, either case (`getu4`). -/
def hexVal (c : Char) : Option Nat :=
  if '0'.toNat ≤ c.toNat ∧ c.toNat ≤ '9'.toNat then some (c.toNat - '0'.toNat)
  else if 'a'.toNat ≤ c.toNat ∧ c.toNat ≤ 'f'.toNat then some (c.toNat - 'a'.toNat + 10)
  else if 'A'.toNat ≤ c.toNat ∧ c.toNat ≤ 'F'.toNat then some (c.toNat - 'A'.toNat + 10)
  else none

/-- Four hexadecimal digits as a code unit (`getu4`). -/
def getu4 (a b c d : Char) : Option Nat :=
  match hexVal a, hexVal b, hexVal c, hexVal d with
  | some x, some y, some z, some w => some (((x * 16 + y) * 16 + z) * 16 + w)
  | _, _, _, _ => none

/-- The Unicode replacement character U+FFFD (`utf8.RuneError`). -/
def replacementChar : Char := Char.ofNat 0xFFFD

/-- The test `utf16.IsSurrogate`. -/
def isSurrogate (r : Nat) : Bool := 0xD800 ≤ r && r < 0xE000

/-- The function `utf16.DecodeRune`: a high/low surrogate pair gives the code point,
anything else the replacement character. -/
def decodeSurrogates (r1 r2 : Nat) : Nat :=
  if 0xD800 ≤ r1 ∧ r1 < 0xDC00 ∧ 0xDC00 ≤ r2 ∧ r2 < 0xE000 then
    (r1 - 0xD800) * 1024 + (r2 - 0xDC00) + 0x10000
  else 0xFFFD

/-- What a pending lone surrogate escape contributes once it is known to have no
partner: the replacement character. -/
def flushPending (pend : Option Nat) : List Char :=
  match pend with
  | some _ => [replacementChar]
  | none => []

/-- The single-character escapes of `unquote`. -/
def unescape (c : Char) : Option Char :=
  if c = '"' then some '"'
  else if c = '\\' then some '\\'
  else if c = '/' then some '/'
  else if c = 'b' then some (Char.ofNat 8)
  else if c = 'f' then some (Char.ofNat 12)
  else if c = 'n' then some '\n'
  else if c = 'r' then some '\r'
  else if c = 't' then some '\t'
  else none

/-- The scanner states inside a string literal: `stateInString`, `stateInStringEsc`, and
`stateInStringEscU` to `stateInStringEscU123` (the number of hexadecimal digits read and
their value). -/
inductive StrState where
  | inString
  | inStringEsc
  | inStringEscU (n : Nat) (acc : Nat)

/-- The outcome of one scanner step inside a string literal: a syntax error, the closing
quote, or a next state; `out` is the text decoded by this step. -/
inductive StrStep where
  | error
  | done (out : List Char)
  | next (pend : Option Nat) (st : StrState) (out : List Char)

/-- The end of a `\u` escape with value `r`, as `unquote` decodes it: a high/low
surrogate pair of escapes is one code point, any other surrogate escape becomes U+FFFD.
`pend` is a surrogate escape read just before; `unquote` looks ahead instead, with the
same result. -/
def endEscapeU (pend : Option Nat) (r : Nat) : StrStep :=
  match pend with
  | some hi =>
    if decodeSurrogates hi r ≠ 0xFFFD then
      .next none .inString [Char.ofNat (decodeSurrogates hi r)]
    else if isSurrogate r then .next (some r) .inString [replacementChar]
    else .next none .inString [replacementChar, Char.ofNat r]
  | none =>
    if isSurrogate r then .next (some r) .inString []
    else .next none .inString [Char.ofNat r]

/-- One scanner step inside a string literal. Control characters and malformed escapes
are syntax errors. -/
def strStep (pend : Option Nat) (st : StrState) (c : Char) : StrStep :=
  match st with
  | .inString =>
    if c = '"' then .done (flushPending pend)
    else if c = '\\' then .next pend .inStringEsc []
    else if c.toNat < 0x20 then .error
    else .next none .inString (flushPending pend ++ [c])
  | .inStringEsc =>
    if c = 'u' then .next pend (.inStringEscU 0 0) []
    else
      match unescape c with
      | some ch => .next none .inString (flushPending pend ++ [ch])
      | none => .error
  | .inStringEscU n acc =>
    match hexVal c with
    | none => .error
    | some v =>
      if n < 3 then .next pend (.inStringEscU (n + 1) (acc * 16 + v)) []
      else endEscapeU pend (acc * 16 + v)

/-- Run the string scanner to the closing quote. Returns the decoded text and the input
after the closing quote; input that ends inside the literal is an error. -/
def scanStr : Option Nat → StrState → List Char → Option (List Char × List Char)
  | _, _, [] => none
  | pend, st, c :: cs =>
    match strStep pend st c with
    | .error => none
    | .done out => some (out, cs)
    | .next pend2 st2 out => (scanStr pend2 st2 cs).map (fun p => (out ++ p.1, p.2))

/-- Scan and unquote a string literal whose opening quote has been consumed. -/
def scanString (cs : List Char) : Option (List Char × List Char) :=
  scanStr none .inString cs

/-- Split off the longest run of decimal digits. -/
def takeDigits : List Char → List Char × List Char
  | [] => ([], [])
  | c :: cs =>
    if isDigit c then ((c :: (takeDigits cs).1), (takeDigits cs).2) else ([], c :: cs)

/-- An optional minus sign of a number literal. -/
def scanSign (cs : List Char) : List Char × List Char :=
  match cs with
  | [] => ([], [])
  | c :: r => if c = '-' then ([c], r) else ([], c :: r)

/-- The integer part of a number literal: a single `0`, or a non-zero digit followed by
digits. -/
def scanIntPart (cs : List Char) : Option (List Char × List Char) :=
  match cs with
  | [] => none
  | d :: r =>
    if d = '0' then some ([d], r)
    else if isDigit d then some (d :: (takeDigits r).1, (takeDigits r).2)
    else none

/-- The optional fraction of a number literal: a dot followed by at least one digit. -/
def scanFraction (cs : List Char) : Option (List Char × List Char) :=
  match cs with
  | [] => some ([], [])
  | c :: r =>
    if c = '.' then
      if (takeDigits r).1 = [] then none else some (c :: (takeDigits r).1, (takeDigits r).2)
    else some ([], c :: r)

/-- The optional sign of an exponent. -/
def scanExpSign (cs : List Char) : List Char × List Char :=
  match cs with
  | [] => ([], [])
  | c :: r => if c = '+' ∨ c = '-' then ([c], r) else ([], c :: r)

/-- The optional exponent of a number literal: `e` or `E`, an optional sign, at least
one digit. -/
def scanExponent (cs : List Char) : Option (List Char × List Char) :=
  match cs with
  | [] => some ([], [])
  | c :: r =>
    if c = 'e' ∨ c = 'E' then
      if (takeDigits (scanExpSign r).2).1 = [] then none
      else
        some (c :: ((scanExpSign r).1 ++ (takeDigits (scanExpSign r).2).1),
          (takeDigits (scanExpSign r).2).2)
    else some ([], c :: r)

/-- Scan a number literal (`state1`, `state0`, `stateDot`, `stateE`, ...). Returns the
literal text and the remaining input. -/
def scanNumber (cs : List Char) : Option (List Char × List Char) :=
  match scanIntPart (scanSign cs).2 with
  | none => none
  | some (ip, cs2) =>
    match scanFraction cs2 with
    | none => none
    | some (fp, cs3) =>
      match scanExponent cs3 with
      | none => none
      | some (ep, cs4) => some ((scanSign cs).1 ++ ip ++ fp ++ ep, cs4)

/-- Strip the literal `lit` from the head of the input. -/
def stripLiteral : List Char → List Char → Option (List Char)
  | [], cs => some cs
  | _ :: _, [] => none
  | l :: ls, c :: cs => if l = c then stripLiteral ls cs else none

/-- Scan one of the literals `true`, `false`, `null`. -/
def scanLiteral (cs : List Char) : Option (Value × List Char) :=
  match stripLiteral ['t', 'r', 'u', 'e'] cs with
  | some r => some (Value.bool true, r)
  | none =>
    match stripLiteral ['f', 'a', 'l', 's', 'e'] cs with
    | some r => some (Value.bool false, r)
    | none =>
      match stripLiteral ['n', 'u', 'l', 'l'] cs with
      | some r => some (Value.null, r)
      | none => none

/-- The scanner's `maxNestingDepth`. -/
def maxNestingDepth : Nat := 10000

mutual
/-- Parse one JSON value at the head of the input (leading whitespace already
skipped). `depth` is the number of enclosing arrays and objects; the first argument
bounds the recursion, and `readValue` passes more than twice the input length, above
which the result no longer depends on it. -/
def parseValue : Nat → Nat → List Char → Option (Value × List Char)
  | 0, _, _ => none
  | fuel + 1, depth, cs =>
    match cs with
    | [] => none
    | c :: rest =>
      if c = '{' then
        if depth + 1 > maxNestingDepth then none
        else
          match skipSpace rest with
          | [] => none
          | k :: r =>
            if k = '}' then some (Value.object [], r)
            else if k = '"' then
              (parseMembers fuel (depth + 1) r).map (fun p => (Value.object p.1, p.2))
            else none
      else if c = '[' then
        if depth + 1 > maxNestingDepth then none
        else
          match skipSpace rest with
          | [] => none
          | k :: r =>
            if k = ']' then some (Value.array [], r)
            else
              (parseElems fuel (depth + 1) (k :: r)).map (fun p => (Value.array p.1, p.2))
      else if c = '"' then
        (scanString rest).map (fun p => (Value.string p.1, p.2))
      else if c = '-' ∨ isDigit c then
        (scanNumber (c :: rest)).map (fun p => (Value.number p.1, p.2))
      else scanLiteral (c :: rest)
/-- Parse object members; the opening quote of the first key has been consumed. After a
value comes `}` or a comma followed by the next key. -/
def parseMembers : Nat → Nat → List Char → Option (List (List Char × Value) × List Char)
  | 0, _, _ => none
  | fuel + 1, depth, cs =>
    match scanString cs with
    | none => none
    | some (key, r1) =>
      match skipSpace r1 with
      | [] => none
      | c :: r2 =>
        if c = ':' then
          match parseValue fuel depth (skipSpace r2) with
          | none => none
          | some (v, r3) =>
            match skipSpace r3 with
            | [] => none
            | d :: r4 =>
              if d = '}' then some ([(key, v)], r4)
              else if d = ',' then
                match skipSpace r4 with
                | [] => none
                | q :: r5 =>
                  if q = '"' then
                    (parseMembers fuel depth r5).map (fun p => ((key, v) :: p.1, p.2))
                  else none
              else none
        else none
/-- Parse array elements; the input starts at the first element. After a value comes
`]` or a comma followed by the next element. -/
def parseElems : Nat → Nat → List Char → Option (List Value × List Char)
  | 0, _, _ => none
  | fuel + 1, depth, cs =>
    match parseValue fuel depth cs with
    | none => none
    | some (v, r1) =>
      match skipSpace r1 with
      | [] => none
      | d :: r2 =>
        if d = ']' then some ([v], r2)
        else if d = ',' then
          (parseElems fuel depth (skipSpace r2)).map (fun p => (v :: p.1, p.2))
        else none
end

/-- Read the first JSON value of a stream (`(*Decoder).readValue`): leading whitespace is
skipped, the value ends at its last character and whatever follows stays unread. -/
def readValue (data : List Char) : Option (Value × List Char) :=
  parseValue (2 * data.length + 2) 0 (skipSpace data)

/-- The check `checkValid`: the whole input is exactly one JSON value, with optional
surrounding whitespace. -/
def parseDocument (data : List Char) : Option Value :=
  match readValue data with
  | some (v, rest) => if skipSpace rest = [] then some v else none
  | none => none

/-- Struct field lookup uses `foldName` when no exact match exists: ASCII letters are
upper-cased. (Non-ASCII runes fold to an ASCII letter only for K and S, which occur in
neither field name used here, so they are left as they are.) -/
def foldName (key : List Char) : List Char :=
  key.map (fun c =>
    if 'a'.toNat ≤ c.toNat ∧ c.toNat ≤ 'z'.toNat then Char.ofNat (c.toNat - 32) else c)

/-- The call `strconv.ParseInt(lit, 10, 64)` on a JSON number literal: only an optional
minus followed by digits is accepted, and the value has to fit in 64 bits. -/
def parseInt64 (lit : List Char) : Option Int :=
  let ds := (scanSign lit).2
  if ds = [] ∨ ¬ ds.all isDigit then none
  else
    let n : Nat := ds.foldl (fun acc c => acc * 10 + (c.toNat - '0'.toNat)) 0
    let v : Int := if (scanSign lit).1 = [] then (n : Int) else - (n : Int)
    if - (2 : Int) ^ 63 ≤ v ∧ v < (2 : Int) ^ 63 then some v else none

/-- Lower-case hexadecimal digit, the table `hex` of encode.go. -/
def hexDigit (n : Nat) : Char :=
  if n < 10 then Char.ofNat ('0'.toNat + n) else Char.ofNat ('a'.toNat + (n - 10))

/-- The escape of one character by `appendString` with `escapeHTML = true`, the
setting `json.Marshal` uses. (Releases before Go 1.22 write backspace and form feed as
`\u0008` and `\u000c`; both spellings decode to the same character.) -/
def escapeChar (c : Char) : List Char :=
  if c = '\\' ∨ c = '"' then ['\\', c]
  else if c = Char.ofNat 8 then ['\\', 'b']
  else if c = Char.ofNat 12 then ['\\', 'f']
  else if c = '\n' then ['\\', 'n']
  else if c = '\r' then ['\\', 'r']
  else if c = '\t' then ['\\', 't']
  else if c.toNat < 0x20 ∨ c = '<' ∨ c = '>' ∨ c = '&' then
    ['\\', 'u', '0', '0', hexDigit (c.toNat / 16), hexDigit (c.toNat % 16)]
  else if c.toNat = 0x2028 ∨ c.toNat = 0x2029 then
    ['\\', 'u', '2', '0', '2', hexDigit (c.toNat % 16)]
  else [c]

/-- The function `appendString`: a quoted, escaped JSON string. -/
def appendString (s : List Char) : List Char :=
  '"' :: (s.flatMap escapeChar ++ ['"'])

end GoJSON

/-- A Go `error` value: `none` is `nil`, `some msg` an error with that text. -/
abbrev GoError := Option String

/-- The decoder method `saveError`: only the first error is kept. -/
def saveError (saved : GoError) (err : GoError) : GoError :=
  match saved with
  | some e => some e
  | none => err

/-- Whether JSON object key `key` selects the struct field tagged `name`: an exact
match, or else a match of the folded names (`byExactName`, then `byFoldedName`). The
field names of one struct used here never fold to the same text, so the two lookups
cannot pick different fields. -/
def GoJSON.keyMatches (key : List Char) (name : String) : Bool :=
  key = name.toList || GoJSON.foldName key = GoJSON.foldName name.toList

/-- The decoder function `literalStore`/`array`/`object` for a destination of kind
string: a JSON string is stored, `null` leaves the field as it is, anything else is an
`UnmarshalTypeError` and leaves the field as it is. -/
def GoJSON.storeString (v : GoJSON.Value) (cur : String) : GoError × String :=
  match v with
  | .string s => (none, String.mk s)
  | .null => (none, cur)
  | .bool _ => (some "json: cannot unmarshal bool into Go struct field of type string", cur)
  | .number _ => (some "json: cannot unmarshal number into Go struct field of type string", cur)
  | .array _ => (some "json: cannot unmarshal array into Go struct field of type string", cur)
  | .object _ => (some "json: cannot unmarshal object into Go struct field of type string", cur)

/-- The decoder for a destination of kind `int` (64 bits): a number literal that
`strconv.ParseInt` accepts is stored, `null` leaves the field as it is, anything else
is an `UnmarshalTypeError` and leaves the field as it is. -/
def GoJSON.storeInt (v : GoJSON.Value) (cur : Int) : GoError × Int :=
  match v with
  | .number lit =>
    match GoJSON.parseInt64 lit with
    | some n => (none, n)
    | none => (some "json: cannot unmarshal number into Go struct field of type int", cur)
  | .null => (none, cur)
  | .bool _ => (some "json: cannot unmarshal bool into Go struct field of type int", cur)
  | .string _ => (some "json: cannot unmarshal string into Go struct field of type int", cur)
  | .array _ => (some "json: cannot unmarshal array into Go struct field of type int", cur)
  | .object _ => (some "json: cannot unmarshal object into Go struct field of type int", cur)

/-! ## Collaborator: RabbitMQ through `amqp091-go` -/

namespace Amqp

/-- The constant `amqp.Transient`. -/
def Transient : Nat := 1

/-- The constant `amqp.Persistent`. -/
def Persistent : Nat := 2

/-- The struct `amqp.Publishing`, with the fields the program could set; a field that a
composite literal does not mention has its zero value. -/
structure Publishing where
  ContentType : String := ""
  DeliveryMode : Nat := 0
  Body : String := ""
deriving DecidableEq, Repr

/-- The struct `amqp.Queue` returned by `QueueDeclare`. -/
structure Queue where
  Name : String
deriving DecidableEq, Repr

/-- The client calls a program can issue on a connection and its channel. -/
inductive Op where
  | Dial (url : String)
  | Channel
  | QueueDeclare (name : String) (durable autoDelete exclusive noWait : Bool)
  | Confirm (noWait : Bool)
  | PublishWithContext (exchange key : String) (mandatory immediate : Bool) (msg : Publishing)
  | PublishWithDeferredConfirmWithContext (exchange key : String) (mandatory immediate : Bool)
      (msg : Publishing)
  | ChannelClose
  | ConnectionClose
deriving DecidableEq, Repr

/-- The broker and client library as a state machine: each call returns an error or
`nil` and a new broker state. -/
abbrev Broker (τ : Type) := τ → Op → GoError × τ

/-- The broker state together with the calls issued so far, oldest first. -/
structure World (τ : Type) where
  st : τ
  trace : List Op

/-- Issue one client call. -/
def World.call {τ : Type} (B : Broker τ) (w : World τ) (op : Op) : GoError × World τ :=
  ((B w.st op).1, { st := (B w.st op).2, trace := w.trace ++ [op] })

end Amqp

/-! ## Collaborator: PostgreSQL through `database/sql` -/

namespace Sql

/-- A statement argument. -/
inductive Arg where
  | text (s : String)
  | int (n : Int)
deriving DecidableEq, Repr

/-- The database as a state machine: `ExecContext` runs one statement with its arguments
and returns an error or `nil` and the new database state. -/
structure DB (σ : Type) where
  ExecContext : σ → String → List Arg → GoError × σ

/-- One issued `ExecContext` call. -/
structure ExecCall where
  query : String
  args : List Arg
deriving DecidableEq, Repr

end Sql

/-- A Prometheus `CounterVec`: one counter per tuple of label values. -/
abbrev CounterVec := List String → Nat

/-- The call `WithLabelValues(labels...).Inc()`. -/
def CounterVec.Inc (c : CounterVec) (labels : List String) : CounterVec :=
  fun l => if l = labels then c l + 1 else c l

/-- One structured log line: the event name and its fields. -/
structure LogEntry where
  level : String
  event : String
  fields : List (String × String)
deriving DecidableEq, Repr

/-- The text `%v`/`%q` prints for an `error` value. -/
def GoError.text (e : GoError) : String :=
  match e with
  | some msg => msg
  | none => "<nil>"

/-! ## orders-api -/

namespace OrdersApi

/-- The struct `OrderRequest`, with its only field tagged `json:"order_id"`. -/
structure OrderRequest where
  OrderID : String
deriving DecidableEq, Repr

/-- The decoder's `object` loop for a destination of type `OrderRequest`: one object
member is matched against the field and stored; a member that matches no field is
skipped. -/
def OrderRequest.setMember (st : GoError × OrderRequest) (kv : List Char × GoJSON.Value) :
    GoError × OrderRequest :=
  if GoJSON.keyMatches kv.1 "order_id" then
    (saveError st.1 (GoJSON.storeString kv.2 st.2.OrderID).1,
      { OrderID := (GoJSON.storeString kv.2 st.2.OrderID).2 })
  else st

/-- Decode a scanned JSON value into an `OrderRequest` (`decodeState.value`): `null` is a
no-op, an object is stored member by member, anything else is an
`UnmarshalTypeError`. -/
def OrderRequest.unmarshalValue (v : GoJSON.Value) (req : OrderRequest) :
    GoError × OrderRequest :=
  match v with
  | .null => (none, req)
  | .object ms => ms.foldl OrderRequest.setMember (none, req)
  | .bool _ => (some "json: cannot unmarshal bool into Go value of type main.OrderRequest", req)
  | .number _ =>
    (some "json: cannot unmarshal number into Go value of type main.OrderRequest", req)
  | .string _ =>
    (some "json: cannot unmarshal string into Go value of type main.OrderRequest", req)
  | .array _ => (some "json: cannot unmarshal array into Go value of type main.OrderRequest", req)

/-- The call `json.NewDecoder(r.Body).Decode(&req)`: the first JSON value of the body is
read and decoded into `req`; a body without a well-formed first value is an error and
leaves `req` as it is. -/
def jsonDecodeOrderRequest (body : String) (req : OrderRequest) : GoError × OrderRequest :=
  match GoJSON.readValue body.toList with
  | none => (some "json: syntax error or unexpected EOF", req)
  | some (v, _) => OrderRequest.unmarshalValue v req

/-- The call `json.Marshal(order)` for an `OrderRequest`: an object with the single key
`order_id`. It has no failing case for this type. -/
def jsonMarshalOrderRequest (order : OrderRequest) : Except String String :=
  .ok (String.mk
    ("\x7b\"order_id\":".toList ++ GoJSON.appendString order.OrderID.toList ++ "\x7d".toList))

/-- The metrics registered by `init`. For the duration histogram only the number of
observations per label tuple is kept. -/
structure Metrics where
  httpRequestsTotal : CounterVec
  httpRequestDuration : CounterVec
  ordersPublishedTotal : Nat
  ordersPublishFailuresTotal : Nat

/-- The struct `Publisher`: the channel and connection live in the broker state, the
declared queue is kept. -/
structure Publisher where
  q : Amqp.Queue
deriving DecidableEq, Repr

/-- The process state the handlers act on. -/
structure State (τ : Type) where
  amqp : Amqp.World τ
  metrics : Metrics
  log : List LogEntry

/-- The function `logInfo`. -/
def logInfo {τ : Type} (s : State τ) (event : String) (fields : List (String × String)) :
    State τ :=
  { s with log := s.log ++ [{ level := "info", event := event, fields := fields }] }

/-- The function `logError`. -/
def logError {τ : Type} (s : State τ) (event : String) (fields : List (String × String)) :
    State τ :=
  { s with log := s.log ++ [{ level := "error", event := event, fields := fields }] }

/-- The function `newPublisher`: dial, open a channel, declare the queue; every failure
closes what was opened and returns the error. The queue name the broker reports for a
named queue is the declared name. -/
def newPublisher {τ : Type} (B : Amqp.Broker τ) (s : State τ) (amqpURL queueName : String) :
    Except String Publisher × State τ :=
  let r1 := s.amqp.call B (.Dial amqpURL)
  match r1.1 with
  | some e => (.error ("failed to connect to RabbitMQ: " ++ e), { s with amqp := r1.2 })
  | none =>
    let r2 := r1.2.call B .Channel
    match r2.1 with
    | some e =>
      let r3 := r2.2.call B .ConnectionClose
      (.error ("failed to open channel: " ++ e), { s with amqp := r3.2 })
    | none =>
      let r3 := r2.2.call B (.QueueDeclare queueName true false false false)
      match r3.1 with
      | some e =>
        let r4 := r3.2.call B .ChannelClose
        let r5 := r4.2.call B .ConnectionClose
        (.error ("failed to declare queue: " ++ e), { s with amqp := r5.2 })
      | none =>
        let s1 := logInfo { s with amqp := r3.2 } "rabbitmq_connected" [("queue", queueName)]
        (.ok { q := { Name := queueName } }, s1)

/-- The method `(*Publisher).PublishOrder`: marshal the order, publish the bytes to the
default exchange with the queue name as routing key, return the publish error. -/
def PublishOrder {τ : Type} (B : Amqp.Broker τ) (p : Publisher) (w : Amqp.World τ)
    (order : OrderRequest) : GoError × Amqp.World τ :=
  match jsonMarshalOrderRequest order with
  | .error e => (some e, w)
  | .ok body =>
    let r := w.call B
      (.PublishWithContext "" p.q.Name false false
        { ContentType := "application/json", Body := body })
    match r.1 with
    | some e => (some e, r.2)
    | none => (none, r.2)

/-- An incoming request: method and the bytes of the body. -/
structure Request where
  Method : String
  Body : String
deriving DecidableEq, Repr

/-- The `http.ResponseWriter`: header map, the status line once written, the body
written so far. -/
structure ResponseWriter where
  header : List (String × String) := []
  status : Option Nat := none
  body : String := ""
deriving DecidableEq, Repr

/-- The call `w.Header().Set(k, v)`. -/
def ResponseWriter.HeaderSet (w : ResponseWriter) (k v : String) : ResponseWriter :=
  { w with header := (k, v) :: w.header.filter (fun kv => kv.1 ≠ k) }

/-- The call `w.WriteHeader(code)`: the first call fixes the status. -/
def ResponseWriter.WriteHeader (w : ResponseWriter) (code : Nat) : ResponseWriter :=
  match w.status with
  | some _ => w
  | none => { w with status := some code }

/-- The call `w.Write(b)`: writes status 200 first when no status was written. -/
def ResponseWriter.Write (w : ResponseWriter) (b : String) : ResponseWriter :=
  { (w.WriteHeader 200) with body := (w.WriteHeader 200).body ++ b }

/-- The constant `http.StatusBadRequest`. -/
def StatusBadRequest : Nat := 400
/-- The constant `http.StatusInternalServerError`. -/
def StatusInternalServerError : Nat := 500
/-- The constant `http.StatusAccepted`. -/
def StatusAccepted : Nat := 202

/-- The closure passed to `logAndCount` in the `http.MethodPost` arm of the `/orders`
handler. Returns the status code and error it reports, the response writer and the
process state. -/
def ordersCreate {τ : Type} (B : Amqp.Broker τ) (pub : Publisher) (r : Request)
    (w : ResponseWriter) (s : State τ) : (Nat × GoError) × ResponseWriter × State τ :=
  let dec := jsonDecodeOrderRequest r.Body { OrderID := "" }
  let err := dec.1
  let req := dec.2
  if err ≠ none ∨ req.OrderID = "" then
    let w1 := w.WriteHeader StatusBadRequest
    let w2 := w1.Write "\x7b\"error\":\"invalid payload\"\x7d"
    let s1 := logError s "order_invalid_payload" [("error", err.text)]
    ((StatusBadRequest, err), w2, s1)
  else
    let pr := PublishOrder B pub s.amqp req
    match pr.1 with
    | some e =>
      let s1 : State τ :=
        { s with
          amqp := pr.2
          metrics :=
            { s.metrics with
              ordersPublishFailuresTotal := s.metrics.ordersPublishFailuresTotal + 1 } }
      let w1 := w.WriteHeader StatusInternalServerError
      let w2 := w1.Write "\x7b\"error\":\"publish failed\"\x7d"
      let s2 := logError s1 "order_publish_failed" [("order_id", req.OrderID), ("error", e)]
      ((StatusInternalServerError, some e), w2, s2)
    | none =>
      let s1 : State τ :=
        { s with
          amqp := pr.2
          metrics :=
            { s.metrics with ordersPublishedTotal := s.metrics.ordersPublishedTotal + 1 } }
      let s2 := logInfo s1 "order_published" [("order_id", req.OrderID)]
      let w1 := w.HeaderSet "Content-Type" "application/json"
      let w2 := w1.WriteHeader StatusAccepted
      let w3 := w2.Write "\x7b\"status\":\"accepted\"\x7d"
      ((StatusAccepted, none), w3, s2)

/-- The function `logAndCount`: run the handler closure, record one duration
observation and one request count under the returned code, log a returned error. -/
def logAndCount {τ : Type} (w : ResponseWriter) (r : Request) (handler : String)
    (fn : ResponseWriter → State τ → (Nat × GoError) × ResponseWriter × State τ)
    (s : State τ) : ResponseWriter × State τ :=
  let res := fn w s
  let code := res.1.1
  let err := res.1.2
  let s1 := res.2.2
  let s2 : State τ :=
    { s1 with
      metrics :=
        { s1.metrics with
          httpRequestDuration := s1.metrics.httpRequestDuration.Inc [handler, r.Method]
          httpRequestsTotal :=
            s1.metrics.httpRequestsTotal.Inc [handler, r.Method, toString code] } }
  match err with
  | some e =>
    (res.2.1, logError s2 "http_request_error"
      [("handler", handler), ("method", r.Method), ("code", toString code), ("error", e)])
  | none => (res.2.1, s2)

/-- The `http.MethodPost` arm of the `/orders` handler. -/
def ordersPost {τ : Type} (B : Amqp.Broker τ) (pub : Publisher) (w : ResponseWriter)
    (r : Request) (s : State τ) : ResponseWriter × State τ :=
  logAndCount w r "orders_create" (ordersCreate B pub r) s

end OrdersApi

/-! ## orders-worker -/

namespace OrdersWorker

/-- The struct `OrderMessage`, fields tagged `json:"order_id"` and `json:"quantity"`. -/
structure OrderMessage where
  OrderID : String
  Quantity : Int
deriving DecidableEq, Repr

/-- The decoder's `object` loop for a destination of type `OrderMessage`: one object
member is matched against the fields and stored; a member that matches no field is
skipped. -/
def OrderMessage.setMember (st : GoError × OrderMessage) (kv : List Char × GoJSON.Value) :
    GoError × OrderMessage :=
  if GoJSON.keyMatches kv.1 "order_id" then
    (saveError st.1 (GoJSON.storeString kv.2 st.2.OrderID).1,
      { st.2 with OrderID := (GoJSON.storeString kv.2 st.2.OrderID).2 })
  else if GoJSON.keyMatches kv.1 "quantity" then
    (saveError st.1 (GoJSON.storeInt kv.2 st.2.Quantity).1,
      { st.2 with Quantity := (GoJSON.storeInt kv.2 st.2.Quantity).2 })
  else st

/-- Decode a scanned JSON value into an `OrderMessage` (`decodeState.value`): `null` is a
no-op, an object is stored member by member, anything else is an
`UnmarshalTypeError`. -/
def OrderMessage.unmarshalValue (v : GoJSON.Value) (m : OrderMessage) :
    GoError × OrderMessage :=
  match v with
  | .null => (none, m)
  | .object ms => ms.foldl OrderMessage.setMember (none, m)
  | .bool _ => (some "json: cannot unmarshal bool into Go value of type main.OrderMessage", m)
  | .number _ => (some "json: cannot unmarshal number into Go value of type main.OrderMessage", m)
  | .string _ => (some "json: cannot unmarshal string into Go value of type main.OrderMessage", m)
  | .array _ => (some "json: cannot unmarshal array into Go value of type main.OrderMessage", m)

/-- The call `json.Unmarshal(body, &m)`: the body has to be exactly one JSON value
(`checkValid`), which is then decoded into `m`; a syntax error leaves `m` as it is. -/
def jsonUnmarshalOrderMessage (body : String) (m : OrderMessage) : GoError × OrderMessage :=
  match GoJSON.parseDocument body.toList with
  | none => (some "json: syntax error", m)
  | some v => OrderMessage.unmarshalValue v m

/-- The metrics registered by `init`; `workerMessagesTotal` has the single label
`status`. -/
structure Metrics where
  workerMessagesTotal : CounterVec
  workerDBErrorsTotal : Nat

/-- The process state `handleMessage` acts on: the database, the `ExecContext` calls
issued so far (oldest first), the metrics and the log. -/
structure State (σ : Type) where
  db : σ
  execs : List Sql.ExecCall
  metrics : Metrics
  log : List LogEntry

/-- The statement text `handleMessage` executes. -/
def insertSQL : String := "INSERT INTO orders (order_id, quantity) VALUES ($1, $2)"

/-- The function `handleMessage`. -/
def handleMessage {σ : Type} (D : Sql.DB σ) (s : State σ) (body : String) : State σ :=
  let dec := jsonUnmarshalOrderMessage body { OrderID := "", Quantity := 1 }
  let err := dec.1
  let m := dec.2
  if err ≠ none ∨ m.OrderID = "" then
    { s with
      metrics :=
        { s.metrics with
          workerMessagesTotal := s.metrics.workerMessagesTotal.Inc ["decode_error"] }
      log := s.log ++
        [{ level := "", event := "order_decode_failed",
           fields := [("body", body), ("error", err.text)] }] }
  else
    let call : Sql.ExecCall :=
      { query := insertSQL, args := [.text m.OrderID, .int m.Quantity] }
    let res := D.ExecContext s.db call.query call.args
    match res.1 with
    | some e =>
      { db := res.2
        execs := s.execs ++ [call]
        metrics :=
          { workerMessagesTotal := s.metrics.workerMessagesTotal.Inc ["db_error"]
            workerDBErrorsTotal := s.metrics.workerDBErrorsTotal + 1 }
        log := s.log ++
          [{ level := "", event := "order_insert_failed",
             fields := [("order_id", m.OrderID), ("error", e)] }] }
    | none =>
      { db := res.2
        execs := s.execs ++ [call]
        metrics :=
          { s.metrics with workerMessagesTotal := s.metrics.workerMessagesTotal.Inc ["ok"] }
        log := s.log ++
          [{ level := "", event := "order_inserted",
             fields := [("order_id", m.OrderID), ("quantity", toString m.Quantity)] }] }

/-- A delivery from the queue (`amqp.Delivery`), of which only the body is used. -/
structure Delivery where
  Body : String
deriving DecidableEq, Repr

/-- The loop `for msg := range msgs { handleMessage(db, msg.Body) }` over the deliveries
received until the channel closes. -/
def consumeLoop {σ : Type} (D : Sql.DB σ) (s : State σ) (msgs : List Delivery) : State σ :=
  msgs.foldl (fun st msg => handleMessage D st msg.Body) s

/-- A row of the `orders` table as far as the worker writes it (`created_at` is assigned
by the server). -/
structure OrderRecord where
  order_id : String
  quantity : Int
deriving DecidableEq, Repr

/-- Store model of a table keyed by `order_id`: the worker's INSERT fails exactly when
the key already exists and otherwise appends the row; no other statement is known. -/
def tableExec (t : List OrderRecord) (query : String) (args : List Sql.Arg) :
    GoError × List OrderRecord :=
  if query = insertSQL then
    match args with
    | [.text id, .int q] =>
      if t.any (fun r => r.order_id = id) then
        (some "pq: duplicate key value violates unique constraint", t)
      else (none, t ++ [{ order_id := id, quantity := q }])
    | _ => (some "pq: wrong number or type of arguments", t)
  else (some "pq: unknown statement", t)

/-- The keyed table as a database. -/
def tableDB : Sql.DB (List OrderRecord) where
  ExecContext := tableExec

/-- Store model of a keyed table that may also fail for its own reasons (timeout, lost
connection): the state carries a schedule saying, call by call, whether the call
fails that way; a call that fails leaves the table as it is. -/
def flakyExec (st : List OrderRecord × List Bool) (query : String) (args : List Sql.Arg) :
    GoError × (List OrderRecord × List Bool) :=
  match st.2 with
  | true :: sched => (some "pq: canceling statement due to timeout", (st.1, sched))
  | false :: sched => ((tableExec st.1 query args).1, ((tableExec st.1 query args).2, sched))
  | [] => ((tableExec st.1 query args).1, ((tableExec st.1 query args).2, []))

/-- The keyed table with a failure schedule as a database. -/
def flakyDB : Sql.DB (List OrderRecord × List Bool) where
  ExecContext := flakyExec

end OrdersWorker

/-! ## orders-api: database bootstrap and the listing of orders -/

namespace Sql

/-- A connection to the server as orders-api uses it: besides `ExecContext`, the calls
`sql.Open(driverName, dsn)` and `PingContext`. -/
structure Conn (σ : Type) extends DB σ where
  Open : String → String → GoError
  PingContext : σ → GoError × σ

/-- The result set of a query as a `rows.Next`/`rows.Scan` loop sees it: for every row
that `rows.Next` yields, what `rows.Scan` gives for it, and the value of `rows.Err()`
once `rows.Next` has returned false. -/
structure Rows (α : Type) where
  scans : List (Except String α)
  err : GoError

/-- The call `QueryContext`: a read of the database state that gives an error or a
result set. -/
abbrev Query (σ α : Type) := σ → String → Except String (Rows α)

end Sql

namespace OrdersApi

/-- The struct `OrderRow`; it has no json tags. The `time.Time` value is kept as its
RFC 3339 text, the form `time.Time.MarshalJSON` writes. -/
structure OrderRow where
  OrderID : String
  CreatedAt : String
deriving DecidableEq, Repr

/-- The statement text `initDB` executes. -/
def createTableSQL : String :=
  "\n\t\tCREATE TABLE IF NOT EXISTS orders (\n\t\t\torder_id   TEXT PRIMARY KEY,\n\t\t\tcreated_at TIMESTAMPTZ NOT NULL DEFAULT now()\n\t\t)\n\t"

/-- The statement text `listOrders` queries. -/
def selectSQL : String :=
  "\n\t\tSELECT order_id, created_at\n\t\tFROM orders\n\t\tORDER BY created_at DESC\n\t\tLIMIT 50\n\t"

/-- The function `initDB`: open, ping, create the table when it does not exist. Returns
the error (the handle itself is the connection) with the process state and the
database state. -/
def initDB {τ σ : Type} (C : Sql.Conn σ) (s : State τ) (db : σ) (dsn : String) :
    GoError × State τ × σ :=
  match C.Open "postgres" dsn with
  | some e => (some ("sql.Open: " ++ e), s, db)
  | none =>
    match (C.PingContext db).1 with
    | some e => (some ("ping db: " ++ e), s, (C.PingContext db).2)
    | none =>
      match (C.ExecContext (C.PingContext db).2 createTableSQL []).1 with
      | some e =>
        (some ("create table: " ++ e), s,
          (C.ExecContext (C.PingContext db).2 createTableSQL []).2)
      | none =>
        (none, logInfo s "postgres_connected" [("dsn", "redacted")],
          (C.ExecContext (C.PingContext db).2 createTableSQL []).2)

/-- The built-in `append` on a slice that may be nil (`none`): the result is never
nil. -/
def goAppend {α : Type} (sl : Option (List α)) (x : α) : Option (List α) :=
  match sl with
  | none => some [x]
  | some l => some (l ++ [x])

/-- The loop `for rows.Next()` of `listOrders` over the scans still to come, with the
slice `out` built so far: a scan error ends the function with that error. -/
def listOrdersLoop :
    List (Except String OrderRow) → Option (List OrderRow) → Except String (Option (List OrderRow))
  | [], out => .ok out
  | .error e :: _, _ => .error e
  | .ok o :: rest, out => listOrdersLoop rest (goAppend out o)

/-- The function `listOrders`. The slice `out` starts as `var out []OrderRow`, the nil
slice (`none`). -/
def listOrders {σ : Type} (Q : Sql.Query σ OrderRow) (db : σ) :
    Option (List OrderRow) × GoError :=
  match Q db selectSQL with
  | .error e => (none, some e)
  | .ok rows =>
    match listOrdersLoop rows.scans none with
    | .error e => (none, some e)
    | .ok out => (out, rows.err)

/-- JSON text of one `OrderRow` as `json.Marshal` writes it: the exported field names are
the keys, the time is a quoted RFC 3339 string. -/
def jsonOrderRow (o : OrderRow) : List Char :=
  "\x7b\"OrderID\":".toList ++ GoJSON.appendString o.OrderID.toList ++
    ",\"CreatedAt\":".toList ++ GoJSON.appendString o.CreatedAt.toList ++ "\x7d".toList

/-- The elements of a JSON array, separated by commas. -/
def jsonElems : List (List Char) → List Char
  | [] => []
  | [x] => x
  | x :: y :: rest => x ++ ',' :: jsonElems (y :: rest)

/-- The call `json.NewEncoder(w).Encode(orders)` up to the write: the marshalled slice
followed by a newline. A nil slice is marshalled as `null`, any other slice as an
array. It has no failing case for this type. -/
def jsonEncodeOrderRows (orders : Option (List OrderRow)) : Except String String :=
  match orders with
  | none => .ok "null\n"
  | some l => .ok (String.mk ('[' :: (jsonElems (l.map jsonOrderRow) ++ [']', '\n'])))

/-- The constant `http.StatusOK`. -/
def StatusOK : Nat := 200
/-- The constant `http.StatusMethodNotAllowed`. -/
def StatusMethodNotAllowed : Nat := 405

/-- The function `http.Error`: plain-text content type, the status, the message and a
newline. -/
def ResponseWriter.Error (w : ResponseWriter) (msg : String) (code : Nat) : ResponseWriter :=
  (((w.HeaderSet "Content-Type" "text/plain; charset=utf-8").HeaderSet
    "X-Content-Type-Options" "nosniff").WriteHeader code).Write (msg ++ "\n")

/-- The closure passed to `logAndCount` in the `http.MethodGet` arm of the `/orders`
handler. -/
def ordersList {τ σ : Type} (Q : Sql.Query σ OrderRow) (db : σ) (w : ResponseWriter)
    (s : State τ) : (Nat × GoError) × ResponseWriter × State τ :=
  match (listOrders Q db).2 with
  | some e =>
    let s1 := logError s "list_orders_failed" [("error", e)]
    let w1 := w.Error "DB error" StatusInternalServerError
    ((StatusInternalServerError, some e), w1, s1)
  | none =>
    let w1 := w.HeaderSet "Content-Type" "application/json"
    match jsonEncodeOrderRows (listOrders Q db).1 with
    | .error e => ((StatusInternalServerError, some e), w1, s)
    | .ok text => ((StatusOK, none), w1.Write text, s)

/-- The handler registered for `/orders`: the switch on the request method. -/
def ordersHandler {τ σ : Type} (B : Amqp.Broker τ) (pub : Publisher)
    (Q : Sql.Query σ OrderRow) (db : σ) (w : ResponseWriter) (r : Request) (s : State τ) :
    ResponseWriter × State τ :=
  if r.Method = "GET" then logAndCount w r "orders_list" (ordersList Q db) s
  else if r.Method = "POST" then logAndCount w r "orders_create" (ordersCreate B pub r) s
  else (w.WriteHeader StatusMethodNotAllowed, s)

end OrdersApi

/-! ## Store model with a schema

A model of the server for the two statement shapes the programs execute,
`CREATE TABLE IF NOT EXISTS` and `INSERT INTO ... VALUES`, that keeps the columns of
each table: an INSERT naming a column the table does not have is an error. -/

namespace Sql

/-- Characters of a word of a statement: letters, digits, underscore, dollar. -/
def isWordChar (c : Char) : Bool :=
  ('a'.toNat ≤ c.toNat && c.toNat ≤ 'z'.toNat) || ('A'.toNat ≤ c.toNat && c.toNat ≤ 'Z'.toNat) ||
    ('0'.toNat ≤ c.toNat && c.toNat ≤ '9'.toNat) || c = '_' || c = '$'

/-- Upper-case form of a word, for comparing keywords. -/
def upper (w : String) : String :=
  String.mk (w.toList.map (fun c =>
    if 'a'.toNat ≤ c.toNat ∧ c.toNat ≤ 'z'.toNat then Char.ofNat (c.toNat - 32) else c))

/-- Lower-case form of a word: unquoted identifiers are folded to lower case. -/
def lower (w : String) : String :=
  String.mk (w.toList.map (fun c =>
    if 'A'.toNat ≤ c.toNat ∧ c.toNat ≤ 'Z'.toNat then Char.ofNat (c.toNat + 32) else c))

/-- The word collected so far, as a token list. -/
def flushWord (cur : List Char) : List String :=
  if cur = [] then [] else [String.mk cur]

/-- Split a statement into words and punctuation marks; whitespace separates. -/
def tokenize : List Char → List Char → List String
  | [], cur => flushWord cur
  | c :: cs, cur =>
    if isWordChar c then tokenize cs (cur ++ [c])
    else if GoJSON.isSpace c then flushWord cur ++ tokenize cs []
    else flushWord cur ++ String.mk [c] :: tokenize cs []

/-- Split the tokens that follow an opening parenthesis into the comma-separated items
up to the matching closing parenthesis; returns the items and the tokens after it. -/
def splitItems :
    List String → Nat → List String → List (List String) →
      Option (List (List String) × List String)
  | [], _, _, _ => none
  | t :: ts, depth, cur, acc =>
    if t = ")" then
      match depth with
      | 0 => some (acc ++ [cur], ts)
      | d + 1 => splitItems ts d (cur ++ [t]) acc
    else if t = "(" then splitItems ts (depth + 1) (cur ++ [t]) acc
    else if t = "," ∧ depth = 0 then splitItems ts depth [] (acc ++ [cur])
    else splitItems ts depth (cur ++ [t]) acc

/-- One column of a table. -/
structure Column where
  name : String
  primaryKey : Bool
  hasDefault : Bool
deriving DecidableEq, Repr

/-- Whether the words `PRIMARY KEY` occur in a column definition. -/
def hasPrimaryKey : List String → Bool
  | [] => false
  | [_] => false
  | a :: b :: rest => (upper a = "PRIMARY" && upper b = "KEY") || hasPrimaryKey (b :: rest)

/-- The column a column definition declares: its first word is the name. -/
def columnOf (item : List String) : Option Column :=
  match item with
  | [] => none
  | name :: rest =>
    some { name := lower name
           primaryKey := hasPrimaryKey rest
           hasDefault := rest.any (fun t => upper t = "DEFAULT") }

/-- The statements of the model. -/
inductive Statement where
  | createTableIfNotExists (table : String) (columns : List Column)
  | insert (table : String) (columns : List String)
deriving DecidableEq, Repr

/-- Read a statement from its tokens. -/
def statementOf (tokens : List String) : Option Statement :=
  match tokens with
  | c :: t :: i :: n :: e :: name :: p :: rest =>
    if upper c = "CREATE" ∧ upper t = "TABLE" ∧ upper i = "IF" ∧ upper n = "NOT" ∧
        upper e = "EXISTS" ∧ p = "(" then
      match splitItems rest 0 [] [] with
      | some (items, []) =>
        if (items.map columnOf).all Option.isSome then
          some (.createTableIfNotExists (lower name) (items.filterMap columnOf))
        else none
      | _ => none
    else if upper c = "INSERT" ∧ upper t = "INTO" ∧ n = "(" then
      match splitItems (e :: name :: p :: rest) 0 [] [] with
      | some (items, v :: _) =>
        if upper v = "VALUES" ∧ items.all (fun it => it.length = 1) then
          some (.insert (lower i) (items.map (fun it => lower (String.join it))))
        else none
      | _ => none
    else none
  | _ => none

/-- Read a statement from its text. -/
def parseStatement (query : String) : Option Statement :=
  statementOf (tokenize query.toList [])

/-- A table: its name, its columns and its rows (each row gives the value of the
columns that were inserted). -/
structure Table where
  name : String
  columns : List Column
  rows : List (List (String × Arg))
deriving DecidableEq, Repr

/-- The first named column that the table does not have. -/
def missingColumn (t : Table) (cols : List String) : Option String :=
  cols.find? (fun c => ¬ t.columns.any (fun col => col.name = c))

/-- Whether a row with the same value in a primary-key column is already present. -/
def violatesKey (t : Table) (row : List (String × Arg)) : Bool :=
  t.columns.any (fun col =>
    col.primaryKey &&
      t.rows.any (fun r =>
        (r.lookup col.name).isSome && r.lookup col.name = row.lookup col.name))

/-- Execute one statement on the tables of a database. -/
def schemaExec (db : List Table) (query : String) (args : List Arg) : GoError × List Table :=
  match parseStatement query with
  | none => (some "pq: syntax error", db)
  | some (.createTableIfNotExists name cols) =>
    if db.any (fun t => t.name = name) then (none, db)
    else (none, db ++ [{ name := name, columns := cols, rows := [] }])
  | some (.insert name cols) =>
    match db.find? (fun t => t.name = name) with
    | none => (some ("pq: relation \"" ++ name ++ "\" does not exist"), db)
    | some t =>
      match missingColumn t cols with
      | some c =>
        (some ("pq: column \"" ++ c ++ "\" of relation \"" ++ name ++ "\" does not exist"), db)
      | none =>
        if args.length ≠ cols.length then
          (some "pq: got a different number of parameters than the statement requires", db)
        else if violatesKey t (cols.zip args) then
          (some "pq: duplicate key value violates unique constraint", db)
        else
          (none, db.map (fun u =>
            if u.name = name then { u with rows := u.rows ++ [cols.zip args] } else u))

/-- The schema-keeping store as a connection: opening and pinging succeed. -/
def schemaConn : Conn (List Table) where
  ExecContext := schemaExec
  Open := fun _ _ => none
  PingContext := fun db => (none, db)

end Sql

/-! ## Concrete environments used to evaluate the model -/

/-- A broker that accepts every call. -/
def acceptingBroker : Amqp.Broker Unit := fun st _ => (none, st)

/-- A broker on which every call fails. -/
def unreachableBroker : Amqp.Broker Unit := fun st _ => (some "connection refused", st)

/-- The publisher `main` builds: the queue is named `orders`. -/
def ordersPublisher : OrdersApi.Publisher := { q := { Name := "orders" } }

/-- The orders-api process state right after start-up, all counters at zero. -/
def apiStart : OrdersApi.State Unit :=
  { amqp := { st := (), trace := [] }
    metrics :=
      { httpRequestsTotal := fun _ => 0
        httpRequestDuration := fun _ => 0
        ordersPublishedTotal := 0
        ordersPublishFailuresTotal := 0 }
    log := [] }

/-- A store whose state is the result of the listing query: the rows, newest first, all
of which scan without error. -/
def listingQuery : Sql.Query (List OrdersApi.OrderRow) OrdersApi.OrderRow :=
  fun rows _ => .ok { scans := rows.map Except.ok, err := none }

/-- The orders-worker process state right after start-up over database state `db`. -/
def workerStart {σ : Type} (db : σ) : OrdersWorker.State σ :=
  { db := db
    execs := []
    metrics := { workerMessagesTotal := fun _ => 0, workerDBErrorsTotal := 0 }
    log := [] }

/-! ## Theorems -/

/-- C1: a POST /orders request whose body fails to decode, or decodes with an empty or
missing `order_id`, issues no broker call at all (so no `PublishOrder`), leaves
`ordersPublishedTotal` and `ordersPublishFailuresTotal` as they were, and is answered
with status 400. -/
theorem OrdersApi.invalid_request_rejected_before_publish {τ : Type} (B : Amqp.Broker τ)
    (pub : OrdersApi.Publisher) (w : OrdersApi.ResponseWriter) (r : OrdersApi.Request)
    (s : OrdersApi.State τ) (hw : w.status = none)
    (h : (OrdersApi.jsonDecodeOrderRequest r.Body { OrderID := "" }).1 ≠ none ∨
      (OrdersApi.jsonDecodeOrderRequest r.Body { OrderID := "" }).2.OrderID = "") :
    (OrdersApi.ordersPost B pub w r s).2.amqp.trace = s.amqp.trace ∧
    (OrdersApi.ordersPost B pub w r s).2.amqp.st = s.amqp.st ∧
    (OrdersApi.ordersPost B pub w r s).2.metrics.ordersPublishedTotal =
      s.metrics.ordersPublishedTotal ∧
    (OrdersApi.ordersPost B pub w r s).2.metrics.ordersPublishFailuresTotal =
      s.metrics.ordersPublishFailuresTotal ∧
    (OrdersApi.ordersPost B pub w r s).1.status = some 400 := by
  have hc : OrdersApi.ordersCreate B pub r w s =
      ((OrdersApi.StatusBadRequest,
          (OrdersApi.jsonDecodeOrderRequest r.Body { OrderID := "" }).1),
        (w.WriteHeader OrdersApi.StatusBadRequest).Write "\x7b\"error\":\"invalid payload\"\x7d",
        OrdersApi.logError s "order_invalid_payload"
          [("error", (OrdersApi.jsonDecodeOrderRequest r.Body { OrderID := "" }).1.text)]) := by
    unfold OrdersApi.ordersCreate
    simp only [if_pos h]
  unfold OrdersApi.ordersPost OrdersApi.logAndCount
  rw [hc]
  cases hE : (OrdersApi.jsonDecodeOrderRequest r.Body { OrderID := "" }).1 <;>
    simp [OrdersApi.logError, OrdersApi.ResponseWriter.Write,
      OrdersApi.ResponseWriter.WriteHeader, hw, OrdersApi.StatusBadRequest]

/-- Witness for C1 at the body `{}` (no `order_id`), on a fresh response writer. -/
theorem OrdersApi.invalid_request_rejected_before_publish_witness :
    ((OrdersApi.jsonDecodeOrderRequest "\x7b\x7d" { OrderID := "" }).1 ≠ none ∨
      (OrdersApi.jsonDecodeOrderRequest "\x7b\x7d" { OrderID := "" }).2.OrderID = "") ∧
    (OrdersApi.ordersPost acceptingBroker ordersPublisher {}
      { Method := "POST", Body := "\x7b\x7d" } apiStart).2.amqp.trace = [] ∧
    (OrdersApi.ordersPost acceptingBroker ordersPublisher {}
      { Method := "POST", Body := "\x7b\x7d" } apiStart).1.status = some 400 :=
  have h := OrdersApi.invalid_request_rejected_before_publish acceptingBroker ordersPublisher {}
    { Method := "POST", Body := "\x7b\x7d" } apiStart rfl (by decide)
  ⟨by decide, h.1, h.2.2.2.2⟩

/-- The marshalled form of an order: `json.Marshal` has no failing case here. -/
theorem OrdersApi.jsonMarshalOrderRequest_ok (order : OrdersApi.OrderRequest) :
    OrdersApi.jsonMarshalOrderRequest order =
      .ok (String.mk ("\x7b\"order_id\":".toList ++
        GoJSON.appendString order.OrderID.toList ++ "\x7d".toList)) := rfl

/-- What one `PublishOrder` call does to the broker world: exactly one
`PublishWithContext` call is issued, and its error is the result. -/
theorem OrdersApi.PublishOrder_spec {τ : Type} (B : Amqp.Broker τ) (p : OrdersApi.Publisher)
    (w : Amqp.World τ) (order : OrdersApi.OrderRequest) :
    (OrdersApi.PublishOrder B p w order).2.trace =
      w.trace ++ [Amqp.Op.PublishWithContext "" p.q.Name false false
        { ContentType := "application/json",
          Body := String.mk ("\x7b\"order_id\":".toList ++
            GoJSON.appendString order.OrderID.toList ++ "\x7d".toList) }] ∧
    (OrdersApi.PublishOrder B p w order).1 =
      (B w.st (Amqp.Op.PublishWithContext "" p.q.Name false false
        { ContentType := "application/json",
          Body := String.mk ("\x7b\"order_id\":".toList ++
            GoJSON.appendString order.OrderID.toList ++ "\x7d".toList) })).1 := by
  unfold OrdersApi.PublishOrder
  rw [OrdersApi.jsonMarshalOrderRequest_ok]
  simp only [Amqp.World.call]
  split <;> simp_all

/-- C2: a POST /orders request whose body decodes without error to a non-empty
`order_id`, and for which `PublishOrder` returns no error, makes exactly one
`PublishOrder` call, for the decoded request: the broker world after the handler is
the one that call leaves, with exactly one publish of the marshalled request added to
the calls issued; the response has status 202 and body `{"status":"accepted"}`. -/
theorem OrdersApi.valid_request_published_once_and_accepted {τ : Type} (B : Amqp.Broker τ)
    (pub : OrdersApi.Publisher) (w : OrdersApi.ResponseWriter) (r : OrdersApi.Request)
    (s : OrdersApi.State τ) (req : OrdersApi.OrderRequest)
    (hw : w.status = none) (hb : w.body = "")
    (hdec : OrdersApi.jsonDecodeOrderRequest r.Body { OrderID := "" } = (none, req))
    (hid : req.OrderID ≠ "")
    (hpub : (OrdersApi.PublishOrder B pub s.amqp req).1 = none) :
    (OrdersApi.ordersPost B pub w r s).2.amqp = (OrdersApi.PublishOrder B pub s.amqp req).2 ∧
    (OrdersApi.ordersPost B pub w r s).2.amqp.trace =
      s.amqp.trace ++ [Amqp.Op.PublishWithContext "" pub.q.Name false false
        { ContentType := "application/json",
          Body := String.mk ("\x7b\"order_id\":".toList ++
            GoJSON.appendString req.OrderID.toList ++ "\x7d".toList) }] ∧
    (OrdersApi.ordersPost B pub w r s).1.status = some 202 ∧
    (OrdersApi.ordersPost B pub w r s).1.body = "\x7b\"status\":\"accepted\"\x7d" := by
  have hc : OrdersApi.ordersCreate B pub r w s =
      ((OrdersApi.StatusAccepted, none),
        (((w.HeaderSet "Content-Type" "application/json").WriteHeader
          OrdersApi.StatusAccepted).Write "\x7b\"status\":\"accepted\"\x7d"),
        OrdersApi.logInfo
          { s with
            amqp := (OrdersApi.PublishOrder B pub s.amqp req).2
            metrics :=
              { s.metrics with
                ordersPublishedTotal := s.metrics.ordersPublishedTotal + 1 } }
          "order_published" [("order_id", req.OrderID)]) := by
    unfold OrdersApi.ordersCreate
    simp only [hdec]
    rw [if_neg (by simp [hid])]
    simp only [hpub]
  have htr := (OrdersApi.PublishOrder_spec B pub s.amqp req).1
  unfold OrdersApi.ordersPost OrdersApi.logAndCount
  rw [hc]
  simp [OrdersApi.logInfo, OrdersApi.ResponseWriter.Write,
    OrdersApi.ResponseWriter.WriteHeader, OrdersApi.ResponseWriter.HeaderSet, hw, hb,
    OrdersApi.StatusAccepted, htr]

/-- Witness for C2 at the body `{"order_id":"A-100"}` on a broker that accepts. -/
theorem OrdersApi.valid_request_published_once_and_accepted_witness :
    OrdersApi.jsonDecodeOrderRequest "\x7b\"order_id\":\"A-100\"\x7d" { OrderID := "" } =
      (none, { OrderID := "A-100" }) ∧
    (OrdersApi.ordersPost acceptingBroker ordersPublisher {}
      { Method := "POST", Body := "\x7b\"order_id\":\"A-100\"\x7d" } apiStart).2.amqp.trace =
      [Amqp.Op.PublishWithContext "" "orders" false false
        { ContentType := "application/json", DeliveryMode := 0,
          Body := "\x7b\"order_id\":\"A-100\"\x7d" }] ∧
    (OrdersApi.ordersPost acceptingBroker ordersPublisher {}
      { Method := "POST", Body := "\x7b\"order_id\":\"A-100\"\x7d" } apiStart).1.status =
      some 202 ∧
    (OrdersApi.ordersPost acceptingBroker ordersPublisher {}
      { Method := "POST", Body := "\x7b\"order_id\":\"A-100\"\x7d" } apiStart).1.body =
      "\x7b\"status\":\"accepted\"\x7d" :=
  have h := OrdersApi.valid_request_published_once_and_accepted acceptingBroker
    ordersPublisher {} { Method := "POST", Body := "\x7b\"order_id\":\"A-100\"\x7d" } apiStart
    { OrderID := "A-100" } rfl rfl (by decide) (by decide) rfl
  ⟨by decide, h.2.1, h.2.2.1, h.2.2.2⟩

/-- C3: a POST /orders request with a non-empty `order_id` for which `PublishOrder`
returns an error is answered with the server-error status 500 (one of 502 and 500, and
not 202), after exactly one publish attempt: one `PublishWithContext` call is added to
the calls issued, none after the failure. -/
theorem OrdersApi.publish_failure_is_server_error_without_retry {τ : Type}
    (B : Amqp.Broker τ) (pub : OrdersApi.Publisher) (w : OrdersApi.ResponseWriter)
    (r : OrdersApi.Request) (s : OrdersApi.State τ) (req : OrdersApi.OrderRequest) (e : String)
    (hw : w.status = none)
    (hdec : OrdersApi.jsonDecodeOrderRequest r.Body { OrderID := "" } = (none, req))
    (hid : req.OrderID ≠ "")
    (hpub : (OrdersApi.PublishOrder B pub s.amqp req).1 = some e) :
    (OrdersApi.ordersPost B pub w r s).1.status = some 500 ∧
    ((OrdersApi.ordersPost B pub w r s).1.status = some 502 ∨
      (OrdersApi.ordersPost B pub w r s).1.status = some 500) ∧
    (OrdersApi.ordersPost B pub w r s).1.status ≠ some 202 ∧
    (OrdersApi.ordersPost B pub w r s).2.amqp = (OrdersApi.PublishOrder B pub s.amqp req).2 ∧
    (OrdersApi.ordersPost B pub w r s).2.amqp.trace =
      s.amqp.trace ++ [Amqp.Op.PublishWithContext "" pub.q.Name false false
        { ContentType := "application/json",
          Body := String.mk ("\x7b\"order_id\":".toList ++
            GoJSON.appendString req.OrderID.toList ++ "\x7d".toList) }] := by
  have hc : OrdersApi.ordersCreate B pub r w s =
      ((OrdersApi.StatusInternalServerError, some e),
        ((w.WriteHeader OrdersApi.StatusInternalServerError).Write
          "\x7b\"error\":\"publish failed\"\x7d"),
        OrdersApi.logError
          { s with
            amqp := (OrdersApi.PublishOrder B pub s.amqp req).2
            metrics :=
              { s.metrics with
                ordersPublishFailuresTotal := s.metrics.ordersPublishFailuresTotal + 1 } }
          "order_publish_failed" [("order_id", req.OrderID), ("error", e)]) := by
    unfold OrdersApi.ordersCreate
    simp only [hdec]
    rw [if_neg (by simp [hid])]
    simp only [hpub]
  have htr := (OrdersApi.PublishOrder_spec B pub s.amqp req).1
  unfold OrdersApi.ordersPost OrdersApi.logAndCount
  rw [hc]
  simp [OrdersApi.logError, OrdersApi.ResponseWriter.Write,
    OrdersApi.ResponseWriter.WriteHeader, hw, OrdersApi.StatusInternalServerError, htr]

/-- Witness for C3 at the body `{"order_id":"A-100"}` on an unreachable broker. -/
theorem OrdersApi.publish_failure_is_server_error_without_retry_witness :
    (OrdersApi.PublishOrder unreachableBroker ordersPublisher apiStart.amqp
      { OrderID := "A-100" }).1 = some "connection refused" ∧
    (OrdersApi.ordersPost unreachableBroker ordersPublisher {}
      { Method := "POST", Body := "\x7b\"order_id\":\"A-100\"\x7d" } apiStart).1.status =
      some 500 ∧
    (OrdersApi.ordersPost unreachableBroker ordersPublisher {}
      { Method := "POST", Body := "\x7b\"order_id\":\"A-100\"\x7d" } apiStart).2.amqp.trace =
      [Amqp.Op.PublishWithContext "" "orders" false false
        { ContentType := "application/json", DeliveryMode := 0,
          Body := "\x7b\"order_id\":\"A-100\"\x7d" }] :=
  have h := OrdersApi.publish_failure_is_server_error_without_retry unreachableBroker
    ordersPublisher {} { Method := "POST", Body := "\x7b\"order_id\":\"A-100\"\x7d" } apiStart
    { OrderID := "A-100" } "connection refused" rfl (by decide) (by decide) rfl
  ⟨rfl, h.1, h.2.2.2.2⟩

/-! ### The string scanner inverts `appendString` -/

namespace GoJSON

/-- A hexadecimal digit written by `hexDigit` is read back by `hexVal`. -/
theorem hexVal_hexDigit : ∀ k, k < 16 → hexVal (hexDigit k) = some k := by decide

/-- Unfolding of the string scanner on a non-empty input. -/
theorem scanStr_cons (pend : Option Nat) (st : StrState) (c : Char) (cs : List Char) :
    scanStr pend st (c :: cs) =
      match strStep pend st c with
      | .error => none
      | .done out => some (out, cs)
      | .next pend2 st2 out => (scanStr pend2 st2 cs).map (fun p => (out ++ p.1, p.2)) := rfl

/-- A `\\u00XY` escape decodes to the character it encodes. -/
theorem scanStr_u00 (n : Nat) (h : n < 256) (tail : List Char) :
    scanStr none .inString
      ('\\' :: 'u' :: '0' :: '0' :: hexDigit (n / 16) :: hexDigit (n % 16) :: tail) =
      (scanStr none .inString tail).map (fun p => (Char.ofNat n :: p.1, p.2)) := by
  have h1 := hexVal_hexDigit (n / 16) (by omega)
  have h2 := hexVal_hexDigit (n % 16) (by omega)
  have h0 : hexVal '0' = some 0 := by decide
  have hs : isSurrogate n = false := by
    simp [isSurrogate]; omega
  have hn : n / 16 * 16 + n % 16 = n := by omega
  cases hT : scanStr none .inString tail <;>
    simp [scanStr_cons, strStep, h0, h1, h2, endEscapeU, hs, hT, hn]

/-- A `\\u202X` escape decodes to the character it encodes. -/
theorem scanStr_u202 (k : Nat) (h : k < 16) (tail : List Char) :
    scanStr none .inString ('\\' :: 'u' :: '2' :: '0' :: '2' :: hexDigit k :: tail) =
      (scanStr none .inString tail).map (fun p => (Char.ofNat (0x2020 + k) :: p.1, p.2)) := by
  have h1 := hexVal_hexDigit k h
  have h0 : hexVal '0' = some 0 := by decide
  have h2 : hexVal '2' = some 2 := by decide
  have hs : isSurrogate (8224 + k) = false := by
    simp [isSurrogate]; omega
  cases hT : scanStr none .inString tail <;>
    simp [scanStr_cons, strStep, h0, h1, h2, endEscapeU, hs, hT]

/-- The scanner decodes the escape of one character to that character. -/
theorem scanStr_escapeChar (c : Char) (tail : List Char) :
    scanStr none .inString (escapeChar c ++ tail) =
      (scanStr none .inString tail).map (fun p => (c :: p.1, p.2)) := by
  unfold escapeChar
  split_ifs with h1 h2 h3 h4 h5 h6 h7 h8
  · cases hT : scanStr none .inString tail <;> rcases h1 with h | h <;> subst h <;>
      simp [scanStr_cons, strStep, unescape, flushPending, hT]
  · subst h2
    cases hT : scanStr none .inString tail <;>
      simp [scanStr_cons, strStep, unescape, flushPending, hT]
  · subst h3
    cases hT : scanStr none .inString tail <;>
      simp [scanStr_cons, strStep, unescape, flushPending, hT]
  · subst h4
    cases hT : scanStr none .inString tail <;>
      simp [scanStr_cons, strStep, unescape, flushPending, hT]
  · subst h5
    cases hT : scanStr none .inString tail <;>
      simp [scanStr_cons, strStep, unescape, flushPending, hT]
  · subst h6
    cases hT : scanStr none .inString tail <;>
      simp [scanStr_cons, strStep, unescape, flushPending, hT]
  · have hlt : c.toNat < 256 := by
      rcases h7 with h | h | h | h
      · omega
      · subst h; decide
      · subst h; decide
      · subst h; decide
    have := scanStr_u00 c.toNat hlt tail
    simpa using this
  · have hk : c.toNat % 16 < 16 := Nat.mod_lt _ (by decide)
    have := scanStr_u202 (c.toNat % 16) hk tail
    have hc : Char.ofNat (0x2020 + c.toNat % 16) = c := by
      rcases h8 with h | h <;> rw [h] <;> rw [← Char.ofNat_toNat c, h]
    simpa [hc] using this
  · have hq : c ≠ '"' := fun h => h1 (Or.inr h)
    have hb : c ≠ '\\' := fun h => h1 (Or.inl h)
    have h20 : ¬ c.toNat < 32 := fun h => h7 (Or.inl h)
    cases hT : scanStr none .inString tail <;>
      simp [scanStr_cons, strStep, flushPending, hT, hq, hb, h20]

/-- The scanner decodes an escaped text, up to the closing quote, to the text. -/
theorem scanStr_flatMap_escapeChar (s rest : List Char) :
    scanStr none .inString (s.flatMap escapeChar ++ '"' :: rest) = some (s, rest) := by
  induction s with
  | nil => simp [scanStr_cons, strStep, flushPending]
  | cons c s ih =>
    rw [List.flatMap_cons, List.append_assoc, scanStr_escapeChar, ih]
    rfl


/-- Unfolding of `parseValue` with fuel left. -/
theorem parseValue_succ (fuel depth : Nat) (cs : List Char) :
    parseValue (fuel + 1) depth cs =
    match cs with
    | [] => none
    | c :: rest =>
      if c = '{' then
        if depth + 1 > maxNestingDepth then none
        else
          match skipSpace rest with
          | [] => none
          | k :: r =>
            if k = '}' then some (Value.object [], r)
            else if k = '"' then
              (parseMembers fuel (depth + 1) r).map (fun p => (Value.object p.1, p.2))
            else none
      else if c = '[' then
        if depth + 1 > maxNestingDepth then none
        else
          match skipSpace rest with
          | [] => none
          | k :: r =>
            if k = ']' then some (Value.array [], r)
            else
              (parseElems fuel (depth + 1) (k :: r)).map (fun p => (Value.array p.1, p.2))
      else if c = '"' then
        (scanString rest).map (fun p => (Value.string p.1, p.2))
      else if c = '-' ∨ isDigit c then
        (scanNumber (c :: rest)).map (fun p => (Value.number p.1, p.2))
      else scanLiteral (c :: rest) := by
  rw [parseValue.eq_def]

/-- Unfolding of `parseMembers` with fuel left. -/
theorem parseMembers_succ (fuel depth : Nat) (cs : List Char) :
    parseMembers (fuel + 1) depth cs =
    match scanString cs with
    | none => none
    | some (key, r1) =>
      match skipSpace r1 with
      | [] => none
      | c :: r2 =>
        if c = ':' then
          match parseValue fuel depth (skipSpace r2) with
          | none => none
          | some (v, r3) =>
            match skipSpace r3 with
            | [] => none
            | d :: r4 =>
              if d = '}' then some ([(key, v)], r4)
              else if d = ',' then
                match skipSpace r4 with
                | [] => none
                | q :: r5 =>
                  if q = '"' then
                    (parseMembers fuel depth r5).map (fun p => ((key, v) :: p.1, p.2))
                  else none
              else none
        else none := by
  rw [parseMembers.eq_def]

/-- The marshalled form of an order request parses to an object whose only member is
`order_id` with the original text. -/
theorem parseValue_marshalled (f : Nat) (id rest : List Char) :
    parseValue (f + 3) 0
        ("\x7b\"order_id\":".toList ++ appendString id ++ '}' :: rest) =
      some (Value.object [("order_id".toList, Value.string id)], rest) := by
  have hl : "\x7b\"order_id\":".toList =
      ['{', '"', 'o', 'r', 'd', 'e', 'r', '_', 'i', 'd', '"', ':'] := by decide
  have hk : "order_id".toList = ['o', 'r', 'd', 'e', 'r', '_', 'i', 'd'] := by decide
  have hs := scanStr_flatMap_escapeChar id ('}' :: rest)
  rw [hl, hk]
  simp [appendString, parseValue_succ, parseMembers_succ, skipSpace, isSpace, scanString,
    scanStr_cons, strStep, flushPending, maxNestingDepth, hs]

/-- The marshalled form of an order request is a complete JSON document: an object whose
only member is `order_id` with the original text. -/
theorem parseDocument_marshalled (id : List Char) :
    parseDocument ("\x7b\"order_id\":".toList ++ appendString id ++ "\x7d".toList) =
      some (Value.object [("order_id".toList, Value.string id)]) := by
  have hr : "\x7d".toList = ['}'] := by decide
  have hl : "\x7b\"order_id\":".toList =
      ['{', '"', 'o', 'r', 'd', 'e', 'r', '_', 'i', 'd', '"', ':'] := by decide
  have hp := parseValue_marshalled
    (2 * ("\x7b\"order_id\":".toList ++ appendString id ++ ['}']).length - 1) id []
  have hf : 2 * ("\x7b\"order_id\":".toList ++ appendString id ++ ['}']).length - 1 + 3 =
      2 * ("\x7b\"order_id\":".toList ++ appendString id ++ ['}']).length + 2 := by
    have : 0 < ("\x7b\"order_id\":".toList ++ appendString id ++ ['}']).length := by
      simp
    omega
  rw [hf] at hp
  have hsk : skipSpace ("\x7b\"order_id\":".toList ++ appendString id ++ ['}']) =
      "\x7b\"order_id\":".toList ++ appendString id ++ ['}'] := by
    rw [hl]
    simp [skipSpace, isSpace]
  unfold parseDocument readValue
  rw [hr, hsk, hp]
  simp [skipSpace]

end GoJSON

/-! ### The fuel of the parser is enough -/

namespace GoJSON
/-- Whitespace skipping does not lengthen the input. -/
theorem skipSpace_length (cs : List Char) : (skipSpace cs).length ≤ cs.length := by
  induction cs with
  | nil => simp [skipSpace]
  | cons c cs ih =>
    unfold skipSpace
    split_ifs
    · simp only [List.length_cons]; omega
    · exact Nat.le_refl _

/-- A scanned string literal consumes at least its closing quote. -/
theorem scanStr_length (cs : List Char) :
    ∀ (pend : Option Nat) (st : StrState) (out r : List Char),
      scanStr pend st cs = some (out, r) → r.length < cs.length := by
  induction cs with
  | nil => intro pend st out r h; simp [scanStr] at h
  | cons c cs ih =>
    intro pend st out r h
    rw [scanStr_cons] at h
    cases hs : strStep pend st c with
    | error => simp [hs] at h
    | done o =>
      simp only [hs, Option.some.injEq, Prod.mk.injEq] at h
      rw [← h.2]
      simp
    | next p2 s2 o =>
      simp only [hs] at h
      cases hr : scanStr p2 s2 cs with
      | none => simp [hr] at h
      | some pr =>
        simp only [hr, Option.map_some', Option.some.injEq, Prod.mk.injEq] at h
        have := ih p2 s2 pr.1 pr.2 hr
        rw [← h.2]
        simp only [List.length_cons]
        omega

/-- Taking digits does not lengthen the input. -/
theorem takeDigits_length (cs : List Char) : (takeDigits cs).2.length ≤ cs.length := by
  induction cs with
  | nil => simp [takeDigits]
  | cons c cs ih =>
    unfold takeDigits
    split_ifs
    · simp only [List.length_cons]; omega
    · exact Nat.le_refl _

/-- Scanning a sign does not lengthen the input. -/
theorem scanSign_length (cs : List Char) : (scanSign cs).2.length ≤ cs.length := by
  cases cs with
  | nil => simp [scanSign]
  | cons c r =>
    simp only [scanSign]
    split_ifs <;> simp

/-- An integer part consumes at least one character. -/
theorem scanIntPart_length (cs ip r : List Char) (h : scanIntPart cs = some (ip, r)) :
    r.length < cs.length := by
  unfold scanIntPart at h
  cases cs with
  | nil => simp at h
  | cons d t =>
    simp only at h
    have := takeDigits_length t
    split_ifs at h <;> simp only [Option.some.injEq, Prod.mk.injEq] at h <;>
      rw [← h.2] <;> simp only [List.length_cons] <;> omega

/-- Scanning a fraction does not lengthen the input. -/
theorem scanFraction_length (cs fp r : List Char) (h : scanFraction cs = some (fp, r)) :
    r.length ≤ cs.length := by
  unfold scanFraction at h
  cases cs with
  | nil => simp at h; rw [← h.2]
  | cons d t =>
    simp only at h
    have := takeDigits_length t
    split_ifs at h
    all_goals simp only [Option.some.injEq, Prod.mk.injEq] at h
    all_goals rw [← h.2]
    all_goals simp only [List.length_cons]
    all_goals omega

/-- Scanning an exponent sign does not lengthen the input. -/
theorem scanExpSign_length (cs : List Char) : (scanExpSign cs).2.length ≤ cs.length := by
  cases cs with
  | nil => simp [scanExpSign]
  | cons c r =>
    simp only [scanExpSign]
    split_ifs <;> simp

/-- Scanning an exponent does not lengthen the input. -/
theorem scanExponent_length (cs ep r : List Char) (h : scanExponent cs = some (ep, r)) :
    r.length ≤ cs.length := by
  unfold scanExponent at h
  cases cs with
  | nil => simp at h; rw [← h.2]
  | cons d t =>
    simp only at h
    have h1 := scanExpSign_length t
    have h2 := takeDigits_length (scanExpSign t).2
    split_ifs at h
    all_goals simp only [Option.some.injEq, Prod.mk.injEq] at h
    all_goals rw [← h.2]
    all_goals simp only [List.length_cons]
    all_goals omega

/-- A number literal consumes at least one character. -/
theorem scanNumber_length (cs l r : List Char) (h : scanNumber cs = some (l, r)) :
    r.length < cs.length := by
  unfold scanNumber at h
  cases h1 : scanIntPart (scanSign cs).2 with
  | none => simp [h1] at h
  | some p1 =>
    obtain ⟨ip, c2⟩ := p1
    simp only [h1] at h
    cases h2 : scanFraction c2 with
    | none => simp [h2] at h
    | some p2 =>
      obtain ⟨fp, c3⟩ := p2
      simp only [h2] at h
      cases h3 : scanExponent c3 with
      | none => simp [h3] at h
      | some p3 =>
        obtain ⟨ep, c4⟩ := p3
        simp only [h3, Option.some.injEq, Prod.mk.injEq] at h
        have a1 := scanSign_length cs
        have a2 := scanIntPart_length _ _ _ h1
        have a3 := scanFraction_length _ _ _ h2
        have a4 := scanExponent_length _ _ _ h3
        rw [← h.2]
        omega

/-- A stripped literal accounts for exactly its own length. -/
theorem stripLiteral_length (lit cs r : List Char) (h : stripLiteral lit cs = some r) :
    r.length + lit.length = cs.length := by
  induction lit generalizing cs with
  | nil => simp [stripLiteral] at h; rw [h]; simp
  | cons l ls ih =>
    cases cs with
    | nil => simp [stripLiteral] at h
    | cons c t =>
      unfold stripLiteral at h
      split_ifs at h
      have := ih t h
      simp only [List.length_cons]
      omega

/-- A scanned literal consumes at least one character. -/
theorem scanLiteral_length (cs r : List Char) (v : Value) (h : scanLiteral cs = some (v, r)) :
    r.length < cs.length := by
  unfold scanLiteral at h
  cases h1 : stripLiteral ['t', 'r', 'u', 'e'] cs with
  | some r1 =>
    simp only [h1, Option.some.injEq, Prod.mk.injEq] at h
    have := stripLiteral_length _ _ _ h1
    rw [← h.2]; simp at this; omega
  | none =>
    simp only [h1] at h
    cases h2 : stripLiteral ['f', 'a', 'l', 's', 'e'] cs with
    | some r1 =>
      simp only [h2, Option.some.injEq, Prod.mk.injEq] at h
      have := stripLiteral_length _ _ _ h2
      rw [← h.2]; simp at this; omega
    | none =>
      simp only [h2] at h
      cases h3 : stripLiteral ['n', 'u', 'l', 'l'] cs with
      | some r1 =>
        simp only [h3, Option.some.injEq, Prod.mk.injEq] at h
        have := stripLiteral_length _ _ _ h3
        rw [← h.2]; simp at this; omega
      | none => simp [h3] at h

/-- Unfolding of `parseElems` with fuel left. -/
theorem parseElems_succ (fuel depth : Nat) (cs : List Char) :
    parseElems (fuel + 1) depth cs =
    match parseValue fuel depth cs with
    | none => none
    | some (v, r1) =>
      match skipSpace r1 with
      | [] => none
      | d :: r2 =>
        if d = ']' then some ([v], r2)
        else if d = ',' then
          (parseElems fuel depth (skipSpace r2)).map (fun p => (v :: p.1, p.2))
        else none := by
  rw [parseElems.eq_def]

/-- What follows the first character after whitespace is shorter than the input. -/
theorem skipSpace_cons_length (cs r : List Char) (k : Char) (h : skipSpace cs = k :: r) :
    r.length < cs.length := by
  have := skipSpace_length cs
  rw [h] at this
  simp only [List.length_cons] at this
  omega

/-- Every successful parse consumes at least one character. -/
theorem parse_length (f : Nat) :
    (∀ d cs v r, parseValue f d cs = some (v, r) → r.length < cs.length) ∧
    (∀ d cs ms r, parseMembers f d cs = some (ms, r) → r.length < cs.length) ∧
    (∀ d cs vs r, parseElems f d cs = some (vs, r) → r.length < cs.length) := by
  induction f with
  | zero =>
    refine ⟨?_, ?_, ?_⟩ <;> intro d cs v r h
    · simp [parseValue] at h
    · simp [parseMembers] at h
    · simp [parseElems] at h
  | succ f ih =>
    obtain ⟨ihV, ihM, ihE⟩ := ih
    refine ⟨?_, ?_, ?_⟩
    · intro d cs v r h
      rw [parseValue_succ] at h
      cases cs with
      | nil => simp at h
      | cons c rest =>
        simp only at h
        split_ifs at h with h1 h2 h3 h4 h5 h6
        · cases hk : skipSpace rest with
          | nil => simp [hk] at h
          | cons k r2 =>
            have hl := skipSpace_cons_length _ _ _ hk
            simp only [hk] at h
            split_ifs at h with e1 e2
            · simp only [Option.some.injEq, Prod.mk.injEq] at h
              rw [← h.2]; simp only [List.length_cons]; omega
            · cases hm : parseMembers f (d + 1) r2 with
              | none => simp [hm] at h
              | some p =>
                simp only [hm, Option.map_some', Option.some.injEq, Prod.mk.injEq] at h
                have := ihM _ _ _ _ hm
                rw [← h.2]; simp only [List.length_cons]; omega
        · cases hk : skipSpace rest with
          | nil => simp [hk] at h
          | cons k r2 =>
            have hl := skipSpace_cons_length _ _ _ hk
            simp only [hk] at h
            split_ifs at h with e1
            · simp only [Option.some.injEq, Prod.mk.injEq] at h
              rw [← h.2]; simp only [List.length_cons]; omega
            · cases hm : parseElems f (d + 1) (k :: r2) with
              | none => simp [hm] at h
              | some p =>
                simp only [hm, Option.map_some', Option.some.injEq, Prod.mk.injEq] at h
                have := ihE _ _ _ _ hm
                rw [← h.2]; simp only [List.length_cons] at *; omega
        · cases hm : scanString rest with
          | none => simp [hm] at h
          | some p =>
            simp only [hm, Option.map_some', Option.some.injEq, Prod.mk.injEq] at h
            have := scanStr_length rest none .inString p.1 p.2 hm
            rw [← h.2]; simp only [List.length_cons]; omega
        · cases hm : scanNumber (c :: rest) with
          | none => simp [hm] at h
          | some p =>
            simp only [hm, Option.map_some', Option.some.injEq, Prod.mk.injEq] at h
            have := scanNumber_length _ p.1 p.2 hm
            rw [← h.2]; exact this
        · exact scanLiteral_length _ _ _ h
    · intro d cs ms r h
      rw [parseMembers_succ] at h
      cases hs : scanString cs with
      | none => simp [hs] at h
      | some p =>
        obtain ⟨key, r1⟩ := p
        have l1 := scanStr_length cs none .inString key r1 hs
        simp only [hs] at h
        cases hk : skipSpace r1 with
        | nil => simp [hk] at h
        | cons c r2 =>
          have l2 := skipSpace_cons_length _ _ _ hk
          simp only [hk] at h
          split_ifs at h with hc
          cases hv : parseValue f d (skipSpace r2) with
          | none => simp [hv] at h
          | some pv =>
            obtain ⟨v, r3⟩ := pv
            have l3 := ihV _ _ _ _ hv
            have l3b := skipSpace_length r2
            simp only [hv] at h
            cases hk2 : skipSpace r3 with
            | nil => simp [hk2] at h
            | cons d2 r4 =>
              have l4 := skipSpace_cons_length _ _ _ hk2
              simp only [hk2] at h
              split_ifs at h with e1 e2
              · simp only [Option.some.injEq, Prod.mk.injEq] at h
                rw [← h.2]; omega
              · cases hk3 : skipSpace r4 with
                | nil => simp [hk3] at h
                | cons q r5 =>
                  have l5 := skipSpace_cons_length _ _ _ hk3
                  simp only [hk3] at h
                  split_ifs at h with e3
                  cases hm : parseMembers f d r5 with
                  | none => simp [hm] at h
                  | some pm =>
                    simp only [hm, Option.map_some', Option.some.injEq, Prod.mk.injEq] at h
                    have := ihM _ _ _ _ hm
                    rw [← h.2]; omega
    · intro d cs vs r h
      rw [parseElems_succ] at h
      cases hv : parseValue f d cs with
      | none => simp [hv] at h
      | some pv =>
        obtain ⟨v, r1⟩ := pv
        have l1 := ihV _ _ _ _ hv
        simp only [hv] at h
        cases hk : skipSpace r1 with
        | nil => simp [hk] at h
        | cons d2 r2 =>
          have l2 := skipSpace_cons_length _ _ _ hk
          simp only [hk] at h
          split_ifs at h with e1 e2
          · simp only [Option.some.injEq, Prod.mk.injEq] at h
            rw [← h.2]; omega
          · cases hm : parseElems f d (skipSpace r2) with
            | none => simp [hm] at h
            | some pm =>
              simp only [hm, Option.map_some', Option.some.injEq, Prod.mk.injEq] at h
              have := ihE _ _ _ _ hm
              have := skipSpace_length r2
              rw [← h.2]; omega

/-- Above twice the input length the parse result does not depend on the fuel. -/
theorem parse_fuel_stable (f : Nat) :
    (∀ g d cs, 2 * cs.length < f → f ≤ g → parseValue g d cs = parseValue f d cs) ∧
    (∀ g d cs, 2 * cs.length < f → f ≤ g → parseMembers g d cs = parseMembers f d cs) ∧
    (∀ g d cs, 2 * cs.length + 1 < f → f ≤ g → parseElems g d cs = parseElems f d cs) := by
  induction f with
  | zero =>
    refine ⟨?_, ?_, ?_⟩ <;> intro g d cs h _ <;> omega
  | succ f ih =>
    obtain ⟨ihV, ihM, ihE⟩ := ih
    refine ⟨?_, ?_, ?_⟩
    · intro g d cs hlen hg
      obtain ⟨g2, rfl⟩ : ∃ g2, g = g2 + 1 := ⟨g - 1, by omega⟩
      have hg2 : f ≤ g2 := by omega
      rw [parseValue_succ, parseValue_succ]
      cases cs with
      | nil => rfl
      | cons c rest =>
        simp only [List.length_cons] at hlen
        simp only
        cases hk : skipSpace rest with
        | nil => rfl
        | cons k r2 =>
          have hl := skipSpace_cons_length _ _ _ hk
          have e1 : parseMembers g2 (d + 1) r2 = parseMembers f (d + 1) r2 :=
            ihM g2 (d + 1) r2 (by omega) hg2
          have e2 : parseElems g2 (d + 1) (k :: r2) = parseElems f (d + 1) (k :: r2) :=
            ihE g2 (d + 1) (k :: r2) (by simp only [List.length_cons]; omega) hg2
          simp only [e1, e2]
    · intro g d cs hlen hg
      obtain ⟨g2, rfl⟩ : ∃ g2, g = g2 + 1 := ⟨g - 1, by omega⟩
      have hg2 : f ≤ g2 := by omega
      rw [parseMembers_succ, parseMembers_succ]
      cases hs : scanString cs with
      | none => rfl
      | some p =>
        obtain ⟨key, r1⟩ := p
        have l1 := scanStr_length cs none .inString key r1 hs
        simp only
        cases hk : skipSpace r1 with
        | nil => rfl
        | cons c r2 =>
          have l2 := skipSpace_cons_length _ _ _ hk
          have l3b := skipSpace_length r2
          simp only
          rw [ihV g2 d (skipSpace r2) (by omega) hg2]
          cases hv : parseValue f d (skipSpace r2) with
          | none => rfl
          | some pv =>
            obtain ⟨v, r3⟩ := pv
            have l3 := (parse_length f).1 _ _ _ _ hv
            simp only
            cases hk2 : skipSpace r3 with
            | nil => rfl
            | cons d2 r4 =>
              have l4 := skipSpace_cons_length _ _ _ hk2
              simp only
              cases hk3 : skipSpace r4 with
              | nil => rfl
              | cons q r5 =>
                have l5 := skipSpace_cons_length _ _ _ hk3
                simp only
                rw [ihM g2 d r5 (by omega) hg2]
    · intro g d cs hlen hg
      obtain ⟨g2, rfl⟩ : ∃ g2, g = g2 + 1 := ⟨g - 1, by omega⟩
      have hg2 : f ≤ g2 := by omega
      rw [parseElems_succ, parseElems_succ]
      rw [ihV g2 d cs (by omega) hg2]
      cases hv : parseValue f d cs with
      | none => rfl
      | some pv =>
        obtain ⟨v, r1⟩ := pv
        have l1 := (parse_length f).1 _ _ _ _ hv
        simp only
        cases hk : skipSpace r1 with
        | nil => rfl
        | cons d2 r2 =>
          have l2 := skipSpace_cons_length _ _ _ hk
          have l3 := skipSpace_length r2
          simp only
          rw [ihE g2 d (skipSpace r2) (by omega) hg2]

/-- The fuel `readValue` passes is enough: any larger amount gives the same result, so
a parse never fails for lack of fuel. -/
theorem readValue_fuel_enough (data : List Char) (g : Nat) (hg : 2 * data.length + 2 ≤ g) :
    parseValue g 0 (skipSpace data) = readValue data := by
  unfold readValue
  have := skipSpace_length data
  exact (parse_fuel_stable (2 * data.length + 2)).1 g 0 (skipSpace data) (by omega) hg

end GoJSON

/-- For a request that decodes to a non-empty `order_id`, the broker world after the
handler is the one a single `PublishOrder` call on the decoded request leaves. -/
theorem OrdersApi.ordersPost_amqp {τ : Type} (B : Amqp.Broker τ) (pub : OrdersApi.Publisher)
    (w : OrdersApi.ResponseWriter) (r : OrdersApi.Request) (s : OrdersApi.State τ)
    (req : OrdersApi.OrderRequest)
    (hdec : OrdersApi.jsonDecodeOrderRequest r.Body { OrderID := "" } = (none, req))
    (hid : req.OrderID ≠ "") :
    (OrdersApi.ordersPost B pub w r s).2.amqp = (OrdersApi.PublishOrder B pub s.amqp req).2 := by
  unfold OrdersApi.ordersPost OrdersApi.logAndCount OrdersApi.ordersCreate
  simp only [hdec]
  rw [if_neg (by simp [hid])]
  cases hp : (OrdersApi.PublishOrder B pub s.amqp req).1 <;>
    simp [OrdersApi.logError, OrdersApi.logInfo]

/-- C4 as stated fails: for the request `{"order_id":"A-100"}` on an accepting broker the
handler answers 202 and the one enqueued body is `{"order_id":"A-100"}`, which is not
`{"order_id":"A-100","quantity":1}`; decoded as a JSON document it has the single
member `order_id` and no `quantity` member. -/
theorem OrdersApi.enqueued_body_lacks_quantity :
    (OrdersApi.ordersPost acceptingBroker ordersPublisher {}
      { Method := "POST", Body := "\x7b\"order_id\":\"A-100\"\x7d" } apiStart).1.status =
      some 202 ∧
    (OrdersApi.ordersPost acceptingBroker ordersPublisher {}
      { Method := "POST", Body := "\x7b\"order_id\":\"A-100\"\x7d" } apiStart).2.amqp.trace =
      [Amqp.Op.PublishWithContext "" "orders" false false
        { ContentType := "application/json", DeliveryMode := 0,
          Body := "\x7b\"order_id\":\"A-100\"\x7d" }] ∧
    (OrdersApi.ordersPost acceptingBroker ordersPublisher {}
      { Method := "POST", Body := "\x7b\"order_id\":\"A-100\"\x7d" } apiStart).2.amqp.trace ≠
      [Amqp.Op.PublishWithContext "" "orders" false false
        { ContentType := "application/json", DeliveryMode := 0,
          Body := "\x7b\"order_id\":\"A-100\",\"quantity\":1\x7d" }] := by
  refine ⟨by decide, by decide, by decide⟩

/-- C4, amended: for a POST /orders request that decodes to a non-empty `order_id` and
whose publish is accepted, exactly one body is submitted to the queue, and that body
is the JSON object whose only member is `order_id` with the request's text; it
carries no `quantity` member. -/
theorem OrdersApi.enqueued_body_is_order_id_object {τ : Type} (B : Amqp.Broker τ)
    (pub : OrdersApi.Publisher) (w : OrdersApi.ResponseWriter) (r : OrdersApi.Request)
    (s : OrdersApi.State τ) (req : OrdersApi.OrderRequest)
    (hdec : OrdersApi.jsonDecodeOrderRequest r.Body { OrderID := "" } = (none, req))
    (hid : req.OrderID ≠ "")
    (hpub : (OrdersApi.PublishOrder B pub s.amqp req).1 = none) :
    ∃ body : String,
      (OrdersApi.ordersPost B pub w r s).2.amqp.trace =
        s.amqp.trace ++ [Amqp.Op.PublishWithContext "" pub.q.Name false false
          { ContentType := "application/json", DeliveryMode := 0, Body := body }] ∧
      GoJSON.parseDocument body.toList =
        some (GoJSON.Value.object
          [("order_id".toList, GoJSON.Value.string req.OrderID.toList)]) ∧
      (OrdersApi.ordersPost B pub w r s).1 =
        (((w.HeaderSet "Content-Type" "application/json").WriteHeader 202).Write
          "\x7b\"status\":\"accepted\"\x7d") := by
  refine ⟨String.mk ("\x7b\"order_id\":".toList ++
    GoJSON.appendString req.OrderID.toList ++ "\x7d".toList), ?_, ?_, ?_⟩
  · rw [OrdersApi.ordersPost_amqp B pub w r s req hdec hid]
    exact (OrdersApi.PublishOrder_spec B pub s.amqp req).1
  · exact GoJSON.parseDocument_marshalled req.OrderID.toList
  · unfold OrdersApi.ordersPost OrdersApi.logAndCount OrdersApi.ordersCreate
    simp only [hdec]
    rw [if_neg (by simp [hid])]
    simp [hpub, OrdersApi.StatusAccepted]

/-- Witness for the amended C4 at the request `{"order_id":"A-100"}`: the enqueued body
is `{"order_id":"A-100"}`. -/
theorem OrdersApi.enqueued_body_is_order_id_object_witness :
    OrdersApi.jsonDecodeOrderRequest "\x7b\"order_id\":\"A-100\"\x7d" { OrderID := "" } =
      (none, { OrderID := "A-100" }) ∧
    (OrdersApi.PublishOrder acceptingBroker ordersPublisher apiStart.amqp
      { OrderID := "A-100" }).1 = none ∧
    ∃ body : String,
      (OrdersApi.ordersPost acceptingBroker ordersPublisher {}
        { Method := "POST", Body := "\x7b\"order_id\":\"A-100\"\x7d" } apiStart).2.amqp.trace =
        apiStart.amqp.trace ++ [Amqp.Op.PublishWithContext "" ordersPublisher.q.Name false false
          { ContentType := "application/json", DeliveryMode := 0, Body := body }] ∧
      GoJSON.parseDocument body.toList =
        some (GoJSON.Value.object
          [("order_id".toList, GoJSON.Value.string "A-100".toList)]) ∧
      (OrdersApi.ordersPost acceptingBroker ordersPublisher {}
        { Method := "POST", Body := "\x7b\"order_id\":\"A-100\"\x7d" } apiStart).1 =
        ((((({} : OrdersApi.ResponseWriter).HeaderSet "Content-Type"
          "application/json").WriteHeader 202).Write "\x7b\"status\":\"accepted\"\x7d")) :=
  ⟨by decide, rfl,
    OrdersApi.enqueued_body_is_order_id_object acceptingBroker ordersPublisher {}
      { Method := "POST", Body := "\x7b\"order_id\":\"A-100\"\x7d" } apiStart
      { OrderID := "A-100" } (by decide) (by decide) rfl⟩

/-! ### The worker's message handler -/

/-- The decode-error branch of `handleMessage`: the state changes only in the
`decode_error` counter and the log. -/
theorem OrdersWorker.handleMessage_decode_error {σ : Type} (D : Sql.DB σ)
    (s : OrdersWorker.State σ) (body : String)
    (h : (OrdersWorker.jsonUnmarshalOrderMessage body { OrderID := "", Quantity := 1 }).1 ≠ none ∨
      (OrdersWorker.jsonUnmarshalOrderMessage body { OrderID := "", Quantity := 1 }).2.OrderID
        = "") :
    OrdersWorker.handleMessage D s body =
      { s with
        metrics :=
          { s.metrics with
            workerMessagesTotal := s.metrics.workerMessagesTotal.Inc ["decode_error"] }
        log := s.log ++
          [{ level := "", event := "order_decode_failed",
             fields := [("body", body),
               ("error", (OrdersWorker.jsonUnmarshalOrderMessage body
                 { OrderID := "", Quantity := 1 }).1.text)] }] } := by
  unfold OrdersWorker.handleMessage
  simp only [if_pos h]

/-- The insert branch of `handleMessage` when the insert fails. -/
theorem OrdersWorker.handleMessage_insert_failed {σ : Type} (D : Sql.DB σ)
    (s : OrdersWorker.State σ) (body : String) (m : OrdersWorker.OrderMessage) (e : String)
    (hdec : OrdersWorker.jsonUnmarshalOrderMessage body { OrderID := "", Quantity := 1 } =
      (none, m))
    (hid : m.OrderID ≠ "")
    (hins : (D.ExecContext s.db OrdersWorker.insertSQL
      [.text m.OrderID, .int m.Quantity]).1 = some e) :
    OrdersWorker.handleMessage D s body =
      { db := (D.ExecContext s.db OrdersWorker.insertSQL [.text m.OrderID, .int m.Quantity]).2
        execs := s.execs ++
          [{ query := OrdersWorker.insertSQL, args := [.text m.OrderID, .int m.Quantity] }]
        metrics :=
          { workerMessagesTotal := s.metrics.workerMessagesTotal.Inc ["db_error"]
            workerDBErrorsTotal := s.metrics.workerDBErrorsTotal + 1 }
        log := s.log ++
          [{ level := "", event := "order_insert_failed",
             fields := [("order_id", m.OrderID), ("error", e)] }] } := by
  unfold OrdersWorker.handleMessage
  simp only [hdec]
  rw [if_neg (by simp [hid])]
  simp only [hins]

/-- The insert branch of `handleMessage` when the insert succeeds. -/
theorem OrdersWorker.handleMessage_inserted {σ : Type} (D : Sql.DB σ)
    (s : OrdersWorker.State σ) (body : String) (m : OrdersWorker.OrderMessage)
    (hdec : OrdersWorker.jsonUnmarshalOrderMessage body { OrderID := "", Quantity := 1 } =
      (none, m))
    (hid : m.OrderID ≠ "")
    (hins : (D.ExecContext s.db OrdersWorker.insertSQL
      [.text m.OrderID, .int m.Quantity]).1 = none) :
    OrdersWorker.handleMessage D s body =
      { db := (D.ExecContext s.db OrdersWorker.insertSQL [.text m.OrderID, .int m.Quantity]).2
        execs := s.execs ++
          [{ query := OrdersWorker.insertSQL, args := [.text m.OrderID, .int m.Quantity] }]
        metrics :=
          { s.metrics with workerMessagesTotal := s.metrics.workerMessagesTotal.Inc ["ok"] }
        log := s.log ++
          [{ level := "", event := "order_inserted",
             fields := [("order_id", m.OrderID), ("quantity", toString m.Quantity)] }] } := by
  unfold OrdersWorker.handleMessage
  simp only [hdec]
  rw [if_neg (by simp [hid])]
  simp only [hins]

/-- A key cannot select both fields of `OrderMessage`. -/
theorem GoJSON.keyMatches_order_id_quantity (key : List Char)
    (h1 : GoJSON.keyMatches key "order_id" = true) :
    GoJSON.keyMatches key "quantity" = false := by
  have hf : GoJSON.foldName key = GoJSON.foldName "order_id".toList := by
    unfold GoJSON.keyMatches at h1
    simp only [Bool.or_eq_true, decide_eq_true_eq] at h1
    rcases h1 with h | h
    · rw [h]
    · exact h
  have hne : GoJSON.foldName "order_id".toList ≠ GoJSON.foldName "quantity".toList := by decide
  have hne2 : "order_id".toList ≠ "quantity".toList := by decide
  unfold GoJSON.keyMatches
  simp only [Bool.or_eq_false_iff, decide_eq_false_iff_not]
  constructor
  · intro h
    rw [h] at hf
    exact hne hf.symm
  · rw [hf]
    exact hne

/-- Once the decoder has saved an error, later object members do not clear it. -/
theorem OrdersWorker.foldl_setMember_error (ms : List (List Char × GoJSON.Value))
    (st : GoError × OrdersWorker.OrderMessage) (h : st.1 ≠ none) :
    (ms.foldl OrdersWorker.OrderMessage.setMember st).1 ≠ none := by
  induction ms generalizing st with
  | nil => simpa using h
  | cons kv ms ih =>
    rw [List.foldl_cons]
    apply ih
    unfold OrdersWorker.OrderMessage.setMember
    cases hs : st.1 with
    | none => exact absurd hs h
    | some e => split_ifs <;> simp [saveError, hs]

/-- Object members whose key does not select `quantity` leave `Quantity` as it is. -/
theorem OrdersWorker.foldl_setMember_quantity (ms : List (List Char × GoJSON.Value))
    (st : GoError × OrdersWorker.OrderMessage)
    (h : ∀ kv ∈ ms, GoJSON.keyMatches kv.1 "quantity" = false) :
    (ms.foldl OrdersWorker.OrderMessage.setMember st).2.Quantity = st.2.Quantity := by
  induction ms generalizing st with
  | nil => rfl
  | cons kv ms ih =>
    rw [List.foldl_cons, ih _ (fun x hx => h x (List.mem_cons_of_mem _ hx))]
    have hk : GoJSON.keyMatches kv.1 "quantity" = false := h kv (by simp)
    unfold OrdersWorker.OrderMessage.setMember
    split_ifs with h1 h2
    · rfl
    · rw [hk] at h2
      exact absurd h2 (by simp)
    · rfl

/-- When decoding an object ends without error, the last member that selects `quantity`,
if its value is a number literal, determines `Quantity`. -/
theorem OrdersWorker.foldl_setMember_last_quantity
    (pre post : List (List Char × GoJSON.Value)) (k lit : List Char)
    (st : GoError × OrdersWorker.OrderMessage) (m : OrdersWorker.OrderMessage)
    (hk : GoJSON.keyMatches k "quantity" = true)
    (hpost : ∀ kv ∈ post, GoJSON.keyMatches kv.1 "quantity" = false)
    (hres : (pre ++ (k, GoJSON.Value.number lit) :: post).foldl
      OrdersWorker.OrderMessage.setMember st = (none, m)) :
    GoJSON.parseInt64 lit = some m.Quantity := by
  rw [List.foldl_append, List.foldl_cons] at hres
  generalize pre.foldl OrdersWorker.OrderMessage.setMember st = st1 at hres
  have hno : ¬ GoJSON.keyMatches k "order_id" = true := by
    intro h
    rw [GoJSON.keyMatches_order_id_quantity k h] at hk
    exact absurd hk (by simp)
  have hstep : OrdersWorker.OrderMessage.setMember st1 (k, GoJSON.Value.number lit) =
      (saveError st1.1 (GoJSON.storeInt (GoJSON.Value.number lit) st1.2.Quantity).1,
        { st1.2 with
          Quantity := (GoJSON.storeInt (GoJSON.Value.number lit) st1.2.Quantity).2 }) := by
    unfold OrdersWorker.OrderMessage.setMember
    rw [if_neg hno, if_pos hk]
  generalize hst2 : OrdersWorker.OrderMessage.setMember st1 (k, GoJSON.Value.number lit) = st2
    at hres
  rw [hstep] at hst2
  have hq := OrdersWorker.foldl_setMember_quantity post st2 hpost
  rw [hres] at hq
  have he : st2.1 = none := by
    by_contra h
    have := OrdersWorker.foldl_setMember_error post st2 h
    rw [hres] at this
    exact this rfl
  subst hst2
  unfold GoJSON.storeInt at hq he
  cases hp : GoJSON.parseInt64 lit with
  | none =>
    exfalso
    simp only [hp] at he
    cases h1 : st1.1 <;> simp [saveError, h1] at he
  | some n =>
    simp only [hp] at hq
    rw [hq]

/-- C5: for a message body that decodes without error to a message `m` with a non-empty
`order_id`, and whose insert succeeds, `handleMessage` issues exactly one `ExecContext`
call, the INSERT with arguments `m.OrderID` and `m.Quantity`, and increments the `ok`
counter by exactly one while every other counter keeps its value. `m.Quantity` is the
body's quantity: the integer of the last `quantity` member when that is a number, and
1 when the body is an object without a `quantity` member. -/
theorem OrdersWorker.decoded_message_inserted_once {σ : Type} (D : Sql.DB σ)
    (s : OrdersWorker.State σ) (body : String) (m : OrdersWorker.OrderMessage)
    (hdec : OrdersWorker.jsonUnmarshalOrderMessage body { OrderID := "", Quantity := 1 } =
      (none, m))
    (hid : m.OrderID ≠ "")
    (hins : (D.ExecContext s.db OrdersWorker.insertSQL
      [.text m.OrderID, .int m.Quantity]).1 = none) :
    (OrdersWorker.handleMessage D s body).execs =
      s.execs ++ [{ query := "INSERT INTO orders (order_id, quantity) VALUES ($1, $2)",
                    args := [.text m.OrderID, .int m.Quantity] }] ∧
    (OrdersWorker.handleMessage D s body).db =
      (D.ExecContext s.db OrdersWorker.insertSQL [.text m.OrderID, .int m.Quantity]).2 ∧
    (OrdersWorker.handleMessage D s body).metrics.workerMessagesTotal ["ok"] =
      s.metrics.workerMessagesTotal ["ok"] + 1 ∧
    (∀ l, l ≠ ["ok"] →
      (OrdersWorker.handleMessage D s body).metrics.workerMessagesTotal l =
        s.metrics.workerMessagesTotal l) ∧
    (OrdersWorker.handleMessage D s body).metrics.workerDBErrorsTotal =
      s.metrics.workerDBErrorsTotal ∧
    (∀ ms, GoJSON.parseDocument body.toList = some (GoJSON.Value.object ms) →
      (∀ kv ∈ ms, GoJSON.keyMatches kv.1 "quantity" = false) → m.Quantity = 1) ∧
    (∀ pre post k lit,
      GoJSON.parseDocument body.toList =
        some (GoJSON.Value.object (pre ++ (k, GoJSON.Value.number lit) :: post)) →
      GoJSON.keyMatches k "quantity" = true →
      (∀ kv ∈ post, GoJSON.keyMatches kv.1 "quantity" = false) →
      GoJSON.parseInt64 lit = some m.Quantity) := by
  rw [OrdersWorker.handleMessage_inserted D s body m hdec hid hins]
  refine ⟨rfl, rfl, ?_, ?_, rfl, ?_, ?_⟩
  · simp [CounterVec.Inc]
  · intro l hl
    simp [CounterVec.Inc, hl]
  · intro ms hms hno
    unfold OrdersWorker.jsonUnmarshalOrderMessage at hdec
    simp only [hms, OrdersWorker.OrderMessage.unmarshalValue] at hdec
    have := OrdersWorker.foldl_setMember_quantity ms
      (none, { OrderID := "", Quantity := 1 }) hno
    rw [hdec] at this
    exact this
  · intro pre post k lit hms hk hpost
    unfold OrdersWorker.jsonUnmarshalOrderMessage at hdec
    simp only [hms, OrdersWorker.OrderMessage.unmarshalValue] at hdec
    exact OrdersWorker.foldl_setMember_last_quantity pre post k lit _ m hk hpost hdec

/-- Witness for C5 at the body `{"order_id":"A-100"}` (no `quantity` member) on an empty
keyed table: one INSERT of `A-100` with quantity 1. -/
theorem OrdersWorker.decoded_message_inserted_once_witness :
    OrdersWorker.jsonUnmarshalOrderMessage "\x7b\"order_id\":\"A-100\"\x7d"
      { OrderID := "", Quantity := 1 } = (none, { OrderID := "A-100", Quantity := 1 }) ∧
    (OrdersWorker.handleMessage OrdersWorker.tableDB (workerStart [])
      "\x7b\"order_id\":\"A-100\"\x7d").execs =
      [{ query := "INSERT INTO orders (order_id, quantity) VALUES ($1, $2)",
         args := [.text "A-100", .int 1] }] ∧
    (OrdersWorker.handleMessage OrdersWorker.tableDB (workerStart [])
      "\x7b\"order_id\":\"A-100\"\x7d").db = [{ order_id := "A-100", quantity := 1 }] ∧
    (OrdersWorker.handleMessage OrdersWorker.tableDB (workerStart [])
      "\x7b\"order_id\":\"A-100\"\x7d").metrics.workerMessagesTotal ["ok"] = 1 :=
  have h := OrdersWorker.decoded_message_inserted_once OrdersWorker.tableDB (workerStart [])
    "\x7b\"order_id\":\"A-100\"\x7d" { OrderID := "A-100", Quantity := 1 } (by decide)
    (by decide) (by decide)
  ⟨by decide, h.1, h.2.1, h.2.2.1⟩

/-- C6: for a message body that fails to parse as an `OrderMessage`, or parses with an
empty `order_id`, `handleMessage` issues no `ExecContext` call and leaves the database
as it is, increments the `decode_error` counter by exactly one, and leaves every other
`workerMessagesTotal` counter (`ok` and `db_error` among them) and
`workerDBErrorsTotal` unchanged. -/
theorem OrdersWorker.undecodable_message_discarded {σ : Type} (D : Sql.DB σ)
    (s : OrdersWorker.State σ) (body : String)
    (h : (OrdersWorker.jsonUnmarshalOrderMessage body { OrderID := "", Quantity := 1 }).1 ≠ none ∨
      (OrdersWorker.jsonUnmarshalOrderMessage body { OrderID := "", Quantity := 1 }).2.OrderID
        = "") :
    (OrdersWorker.handleMessage D s body).execs = s.execs ∧
    (OrdersWorker.handleMessage D s body).db = s.db ∧
    (OrdersWorker.handleMessage D s body).metrics.workerMessagesTotal ["decode_error"] =
      s.metrics.workerMessagesTotal ["decode_error"] + 1 ∧
    (OrdersWorker.handleMessage D s body).metrics.workerMessagesTotal ["ok"] =
      s.metrics.workerMessagesTotal ["ok"] ∧
    (OrdersWorker.handleMessage D s body).metrics.workerMessagesTotal ["db_error"] =
      s.metrics.workerMessagesTotal ["db_error"] ∧
    (∀ l, l ≠ ["decode_error"] →
      (OrdersWorker.handleMessage D s body).metrics.workerMessagesTotal l =
        s.metrics.workerMessagesTotal l) ∧
    (OrdersWorker.handleMessage D s body).metrics.workerDBErrorsTotal =
      s.metrics.workerDBErrorsTotal := by
  rw [OrdersWorker.handleMessage_decode_error D s body h]
  refine ⟨rfl, rfl, ?_, ?_, ?_, ?_, rfl⟩
  · simp [CounterVec.Inc]
  · simp [CounterVec.Inc]
  · simp [CounterVec.Inc]
  · intro l hl
    simp [CounterVec.Inc, hl]

/-- Witness for C6 at the body `not json` on a keyed table holding one row. -/
theorem OrdersWorker.undecodable_message_discarded_witness :
    ((OrdersWorker.jsonUnmarshalOrderMessage "not json"
        { OrderID := "", Quantity := 1 }).1 ≠ none ∨
      (OrdersWorker.jsonUnmarshalOrderMessage "not json"
        { OrderID := "", Quantity := 1 }).2.OrderID = "") ∧
    (OrdersWorker.handleMessage OrdersWorker.tableDB
      (workerStart [{ order_id := "A-100", quantity := 1 }]) "not json").execs = [] ∧
    (OrdersWorker.handleMessage OrdersWorker.tableDB
      (workerStart [{ order_id := "A-100", quantity := 1 }]) "not json").db =
      [{ order_id := "A-100", quantity := 1 }] ∧
    (OrdersWorker.handleMessage OrdersWorker.tableDB
      (workerStart [{ order_id := "A-100", quantity := 1 }])
      "not json").metrics.workerMessagesTotal ["decode_error"] = 1 :=
  have h := OrdersWorker.undecodable_message_discarded OrdersWorker.tableDB
    (workerStart [{ order_id := "A-100", quantity := 1 }]) "not json" (by decide)
  ⟨by decide, h.1, h.2.1, h.2.2.1⟩

/-- The keyed table rejects the worker's INSERT exactly when the key is present, and
appends the row otherwise. -/
theorem OrdersWorker.tableExec_insert (t : List OrdersWorker.OrderRecord) (id : String)
    (q : Int) :
    OrdersWorker.tableExec t OrdersWorker.insertSQL [.text id, .int q] =
      if t.any (fun r => r.order_id = id) then
        (some "pq: duplicate key value violates unique constraint", t)
      else (none, t ++ [{ order_id := id, quantity := q }]) := by
  simp [OrdersWorker.tableExec]

/-- The keyed table database executes statements with `tableExec`. -/
theorem OrdersWorker.tableDB_ExecContext :
    OrdersWorker.tableDB.ExecContext = OrdersWorker.tableExec := rfl

/-- C7: on a table keyed by `order_id` whose insert fails exactly when the key already
exists, handling two messages that decode to the same non-empty `order_id`, absent
from the table before, leaves exactly one record for it (the first message's), with
one `ok` and one `db_error` outcome counted; the table never holds two records for
that `order_id`. -/
theorem OrdersWorker.duplicate_order_id_single_record
    (s : OrdersWorker.State (List OrdersWorker.OrderRecord)) (b1 b2 : String)
    (m1 m2 : OrdersWorker.OrderMessage)
    (h1 : OrdersWorker.jsonUnmarshalOrderMessage b1 { OrderID := "", Quantity := 1 } =
      (none, m1))
    (h2 : OrdersWorker.jsonUnmarshalOrderMessage b2 { OrderID := "", Quantity := 1 } =
      (none, m2))
    (hid : m1.OrderID ≠ "") (hsame : m2.OrderID = m1.OrderID)
    (habs : ∀ r ∈ s.db, r.order_id ≠ m1.OrderID) :
    (OrdersWorker.consumeLoop OrdersWorker.tableDB s [{ Body := b1 }, { Body := b2 }]).db =
      s.db ++ [{ order_id := m1.OrderID, quantity := m1.Quantity }] ∧
    ((OrdersWorker.consumeLoop OrdersWorker.tableDB s [{ Body := b1 }, { Body := b2 }]).db.filter
      (fun r => r.order_id = m1.OrderID)).length = 1 ∧
    ((OrdersWorker.handleMessage OrdersWorker.tableDB s b1).db.filter
      (fun r => r.order_id = m1.OrderID)).length = 1 ∧
    (OrdersWorker.consumeLoop OrdersWorker.tableDB s
      [{ Body := b1 }, { Body := b2 }]).metrics.workerMessagesTotal ["ok"] =
      s.metrics.workerMessagesTotal ["ok"] + 1 ∧
    (OrdersWorker.consumeLoop OrdersWorker.tableDB s
      [{ Body := b1 }, { Body := b2 }]).metrics.workerMessagesTotal ["db_error"] =
      s.metrics.workerMessagesTotal ["db_error"] + 1 ∧
    (OrdersWorker.consumeLoop OrdersWorker.tableDB s
      [{ Body := b1 }, { Body := b2 }]).metrics.workerMessagesTotal ["decode_error"] =
      s.metrics.workerMessagesTotal ["decode_error"] ∧
    (OrdersWorker.consumeLoop OrdersWorker.tableDB s
      [{ Body := b1 }, { Body := b2 }]).metrics.workerDBErrorsTotal =
      s.metrics.workerDBErrorsTotal + 1 := by
  have hnot : s.db.any (fun r => decide (r.order_id = m1.OrderID)) = false := by
    simp only [List.any_eq_false, decide_eq_true_eq]
    exact habs
  have hfil : s.db.filter (fun r => decide (r.order_id = m1.OrderID)) = [] := by
    simp only [List.filter_eq_nil_iff, decide_eq_true_eq]
    exact habs
  have e1 : (OrdersWorker.tableDB.ExecContext s.db OrdersWorker.insertSQL
      [.text m1.OrderID, .int m1.Quantity]) =
      (none, s.db ++ [{ order_id := m1.OrderID, quantity := m1.Quantity }]) := by
    rw [OrdersWorker.tableDB_ExecContext, OrdersWorker.tableExec_insert, hnot]
    rfl
  have hs1 := OrdersWorker.handleMessage_inserted OrdersWorker.tableDB s b1 m1 h1 hid
    (by rw [e1])
  rw [e1] at hs1
  have e2 : (OrdersWorker.tableDB.ExecContext
      (s.db ++ [{ order_id := m1.OrderID, quantity := m1.Quantity }]) OrdersWorker.insertSQL
      [.text m2.OrderID, .int m2.Quantity]) =
      (some "pq: duplicate key value violates unique constraint",
        s.db ++ [{ order_id := m1.OrderID, quantity := m1.Quantity }]) := by
    rw [OrdersWorker.tableDB_ExecContext, OrdersWorker.tableExec_insert, hsame]
    simp
  have hs2 := OrdersWorker.handleMessage_insert_failed OrdersWorker.tableDB
    (OrdersWorker.handleMessage OrdersWorker.tableDB s b1) b2 m2
    "pq: duplicate key value violates unique constraint" h2 (by rw [hsame]; exact hid)
    (by rw [hs1]; simp only; rw [e2])
  have hloop : OrdersWorker.consumeLoop OrdersWorker.tableDB s
      [{ Body := b1 }, { Body := b2 }] =
      OrdersWorker.handleMessage OrdersWorker.tableDB
        (OrdersWorker.handleMessage OrdersWorker.tableDB s b1) b2 := rfl
  rw [hloop, hs2, hs1]
  refine ⟨?_, ?_, ?_, ?_, ?_, ?_, ?_⟩
  · simp only [e2]
  · simp [e2, List.filter_append, hfil]
  · simp [List.filter_append, hfil]
  · simp [CounterVec.Inc]
  · simp [CounterVec.Inc]
  · simp [CounterVec.Inc]
  · rfl

/-- Witness for C7: the bodies `{"order_id":"A-100"}` and
`{"order_id":"A-100","quantity":5}` on an empty keyed table leave the single record
`A-100` with quantity 1. -/
theorem OrdersWorker.duplicate_order_id_single_record_witness :
    OrdersWorker.jsonUnmarshalOrderMessage "\x7b\"order_id\":\"A-100\",\"quantity\":5\x7d"
      { OrderID := "", Quantity := 1 } = (none, { OrderID := "A-100", Quantity := 5 }) ∧
    (OrdersWorker.consumeLoop OrdersWorker.tableDB (workerStart [])
      [{ Body := "\x7b\"order_id\":\"A-100\"\x7d" },
       { Body := "\x7b\"order_id\":\"A-100\",\"quantity\":5\x7d" }]).db =
      [{ order_id := "A-100", quantity := 1 }] ∧
    (OrdersWorker.consumeLoop OrdersWorker.tableDB (workerStart [])
      [{ Body := "\x7b\"order_id\":\"A-100\"\x7d" },
       { Body := "\x7b\"order_id\":\"A-100\",\"quantity\":5\x7d" }]).metrics.workerMessagesTotal
      ["ok"] = 1 ∧
    (OrdersWorker.consumeLoop OrdersWorker.tableDB (workerStart [])
      [{ Body := "\x7b\"order_id\":\"A-100\"\x7d" },
       { Body := "\x7b\"order_id\":\"A-100\",\"quantity\":5\x7d" }]).metrics.workerMessagesTotal
      ["db_error"] = 1 :=
  have h := OrdersWorker.duplicate_order_id_single_record (workerStart [])
    "\x7b\"order_id\":\"A-100\"\x7d" "\x7b\"order_id\":\"A-100\",\"quantity\":5\x7d"
    { OrderID := "A-100", Quantity := 1 } { OrderID := "A-100", Quantity := 5 }
    (by decide) (by decide) (by decide) rfl (by intro r hr; cases hr)
  ⟨by decide, h.1, h.2.2.2.1, h.2.2.2.2.1⟩

/-- Every call of `handleMessage` increments exactly one of the outcome counters `ok`,
`decode_error`, `db_error` by one, leaves every other `workerMessagesTotal` counter
as it is, and writes exactly one log line. -/
theorem OrdersWorker.handleMessage_counts_one {σ : Type} (D : Sql.DB σ)
    (s : OrdersWorker.State σ) (body : String) :
    ((OrdersWorker.handleMessage D s body).metrics.workerMessagesTotal =
        s.metrics.workerMessagesTotal.Inc ["ok"] ∨
      (OrdersWorker.handleMessage D s body).metrics.workerMessagesTotal =
        s.metrics.workerMessagesTotal.Inc ["decode_error"] ∨
      (OrdersWorker.handleMessage D s body).metrics.workerMessagesTotal =
        s.metrics.workerMessagesTotal.Inc ["db_error"]) ∧
    (OrdersWorker.handleMessage D s body).log.length = s.log.length + 1 := by
  by_cases h : (OrdersWorker.jsonUnmarshalOrderMessage body
      { OrderID := "", Quantity := 1 }).1 ≠ none ∨
      (OrdersWorker.jsonUnmarshalOrderMessage body
        { OrderID := "", Quantity := 1 }).2.OrderID = ""
  · rw [OrdersWorker.handleMessage_decode_error D s body h]
    exact ⟨Or.inr (Or.inl rfl), by simp⟩
  · have hn : (OrdersWorker.jsonUnmarshalOrderMessage body
        { OrderID := "", Quantity := 1 }).1 = none := by
      by_contra hc
      exact h (Or.inl hc)
    have hid : (OrdersWorker.jsonUnmarshalOrderMessage body
        { OrderID := "", Quantity := 1 }).2.OrderID ≠ "" := fun hc => h (Or.inr hc)
    have hdec : OrdersWorker.jsonUnmarshalOrderMessage body { OrderID := "", Quantity := 1 } =
        (none, (OrdersWorker.jsonUnmarshalOrderMessage body
          { OrderID := "", Quantity := 1 }).2) := by
      rw [← hn]
    cases hins : (D.ExecContext s.db OrdersWorker.insertSQL
        [.text (OrdersWorker.jsonUnmarshalOrderMessage body
            { OrderID := "", Quantity := 1 }).2.OrderID,
          .int (OrdersWorker.jsonUnmarshalOrderMessage body
            { OrderID := "", Quantity := 1 }).2.Quantity]).1 with
    | none =>
      rw [OrdersWorker.handleMessage_inserted D s body _ hdec hid hins]
      exact ⟨Or.inl rfl, by simp⟩
    | some e =>
      rw [OrdersWorker.handleMessage_insert_failed D s body _ e hdec hid hins]
      exact ⟨Or.inr (Or.inr rfl), by simp⟩

/-- The sum of the three outcome counters after one increment of one of them. -/
theorem CounterVec.outcome_sum_Inc (c c2 : CounterVec)
    (h : c2 = c.Inc ["ok"] ∨ c2 = c.Inc ["decode_error"] ∨ c2 = c.Inc ["db_error"]) :
    (c2 ["ok"] + c2 ["decode_error"] + c2 ["db_error"] =
      c ["ok"] + c ["decode_error"] + c ["db_error"] + 1) ∧
    ((c2 ["ok"] = c ["ok"] + 1 ∧ c2 ["decode_error"] = c ["decode_error"] ∧
        c2 ["db_error"] = c ["db_error"]) ∨
      (c2 ["ok"] = c ["ok"] ∧ c2 ["decode_error"] = c ["decode_error"] + 1 ∧
        c2 ["db_error"] = c ["db_error"]) ∨
      (c2 ["ok"] = c ["ok"] ∧ c2 ["decode_error"] = c ["decode_error"] ∧
        c2 ["db_error"] = c ["db_error"] + 1)) ∧
    (∀ l, l ≠ ["ok"] → l ≠ ["decode_error"] → l ≠ ["db_error"] → c2 l = c l) := by
  rcases h with h | h | h <;> subst h
  · refine ⟨?_, Or.inl ?_, ?_⟩
    · simp [CounterVec.Inc]; omega
    · simp [CounterVec.Inc]
    · intro l h1 _ _; simp [CounterVec.Inc, h1]
  · refine ⟨?_, Or.inr (Or.inl ?_), ?_⟩
    · simp [CounterVec.Inc]; omega
    · simp [CounterVec.Inc]
    · intro l _ h2 _; simp [CounterVec.Inc, h2]
  · refine ⟨?_, Or.inr (Or.inr ?_), ?_⟩
    · simp [CounterVec.Inc]; omega
    · simp [CounterVec.Inc]
    · intro l _ _ h3; simp [CounterVec.Inc, h3]

/-- C8: for every finite sequence of deliveries and every database behaviour, the
consumer loop handles the deliveries one after the other and goes on after each
outcome; each delivery increments exactly one of the outcome counters `ok`,
`decode_error`, `db_error` by exactly one, so after `n` deliveries the three counters
have risen by `n` in total (no other `workerMessagesTotal` counter moves, and `n` log
lines were written). -/
theorem OrdersWorker.every_delivery_counted_once {σ : Type} (D : Sql.DB σ)
    (s : OrdersWorker.State σ) (msgs : List OrdersWorker.Delivery) :
    (∀ (st : OrdersWorker.State σ) (msg : OrdersWorker.Delivery)
        (rest : List OrdersWorker.Delivery),
      OrdersWorker.consumeLoop D st (msg :: rest) =
        OrdersWorker.consumeLoop D (OrdersWorker.handleMessage D st msg.Body) rest) ∧
    (∀ (st : OrdersWorker.State σ) (body : String),
      ((OrdersWorker.handleMessage D st body).metrics.workerMessagesTotal ["ok"] =
          st.metrics.workerMessagesTotal ["ok"] + 1 ∧
        (OrdersWorker.handleMessage D st body).metrics.workerMessagesTotal ["decode_error"] =
          st.metrics.workerMessagesTotal ["decode_error"] ∧
        (OrdersWorker.handleMessage D st body).metrics.workerMessagesTotal ["db_error"] =
          st.metrics.workerMessagesTotal ["db_error"]) ∨
      ((OrdersWorker.handleMessage D st body).metrics.workerMessagesTotal ["ok"] =
          st.metrics.workerMessagesTotal ["ok"] ∧
        (OrdersWorker.handleMessage D st body).metrics.workerMessagesTotal ["decode_error"] =
          st.metrics.workerMessagesTotal ["decode_error"] + 1 ∧
        (OrdersWorker.handleMessage D st body).metrics.workerMessagesTotal ["db_error"] =
          st.metrics.workerMessagesTotal ["db_error"]) ∨
      ((OrdersWorker.handleMessage D st body).metrics.workerMessagesTotal ["ok"] =
          st.metrics.workerMessagesTotal ["ok"] ∧
        (OrdersWorker.handleMessage D st body).metrics.workerMessagesTotal ["decode_error"] =
          st.metrics.workerMessagesTotal ["decode_error"] ∧
        (OrdersWorker.handleMessage D st body).metrics.workerMessagesTotal ["db_error"] =
          st.metrics.workerMessagesTotal ["db_error"] + 1)) ∧
    ((OrdersWorker.consumeLoop D s msgs).metrics.workerMessagesTotal ["ok"] +
        (OrdersWorker.consumeLoop D s msgs).metrics.workerMessagesTotal ["decode_error"] +
        (OrdersWorker.consumeLoop D s msgs).metrics.workerMessagesTotal ["db_error"] =
      s.metrics.workerMessagesTotal ["ok"] + s.metrics.workerMessagesTotal ["decode_error"] +
        s.metrics.workerMessagesTotal ["db_error"] + msgs.length) ∧
    (∀ l, l ≠ ["ok"] → l ≠ ["decode_error"] → l ≠ ["db_error"] →
      (OrdersWorker.consumeLoop D s msgs).metrics.workerMessagesTotal l =
        s.metrics.workerMessagesTotal l) ∧
    (OrdersWorker.consumeLoop D s msgs).log.length = s.log.length + msgs.length := by
  refine ⟨fun _ _ _ => rfl, ?_, ?_⟩
  · intro st body
    exact (CounterVec.outcome_sum_Inc _ _
      (OrdersWorker.handleMessage_counts_one D st body).1).2.1
  · induction msgs generalizing s with
    | nil => exact ⟨rfl, fun _ _ _ _ => rfl, rfl⟩
    | cons msg rest ih =>
      have hstep : OrdersWorker.consumeLoop D s (msg :: rest) =
          OrdersWorker.consumeLoop D (OrdersWorker.handleMessage D s msg.Body) rest := rfl
      have h1 := OrdersWorker.handleMessage_counts_one D s msg.Body
      have hc := CounterVec.outcome_sum_Inc _ _ h1.1
      have hr := ih (OrdersWorker.handleMessage D s msg.Body)
      rw [hstep]
      refine ⟨?_, ?_, ?_⟩
      · rw [hr.1, hc.1, List.length_cons]
        omega
      · intro l h1 h2 h3
        rw [hr.2.1 l h1 h2 h3, hc.2.2 l h1 h2 h3]
      · rw [hr.2.2, h1.2, List.length_cons]
        omega

/-- One statement on the keyed table with a failure schedule either leaves the table as
it is or, being the worker's INSERT, appends the row of its arguments. -/
theorem OrdersWorker.flakyExec_table (st : List OrdersWorker.OrderRecord × List Bool)
    (id : String) (q : Int) :
    (OrdersWorker.flakyExec st OrdersWorker.insertSQL [.text id, .int q]).2.1 = st.1 ∨
    (OrdersWorker.flakyExec st OrdersWorker.insertSQL [.text id, .int q]).2.1 =
      st.1 ++ [{ order_id := id, quantity := q }] := by
  unfold OrdersWorker.flakyExec
  rcases hs : st.2 with _ | ⟨b, sched⟩
  · simp only [OrdersWorker.tableExec_insert]
    split_ifs <;> simp
  · cases b
    · simp only [OrdersWorker.tableExec_insert]
      split_ifs <;> simp
    · simp

/-- One call of `handleMessage` on the keyed table with a failure schedule: the table is
left as it is or gains, at its end, the row of the decoded message; the `ExecContext`
calls issued are INSERT statements. -/
theorem OrdersWorker.handleMessage_flaky_step
    (s : OrdersWorker.State (List OrdersWorker.OrderRecord × List Bool)) (body : String) :
    ((OrdersWorker.handleMessage OrdersWorker.flakyDB s body).db.1 = s.db.1 ∨
      ∃ m, OrdersWorker.jsonUnmarshalOrderMessage body { OrderID := "", Quantity := 1 } =
          (none, m) ∧ m.OrderID ≠ "" ∧
        (OrdersWorker.handleMessage OrdersWorker.flakyDB s body).db.1 =
          s.db.1 ++ [{ order_id := m.OrderID, quantity := m.Quantity }]) ∧
    (∃ calls, (OrdersWorker.handleMessage OrdersWorker.flakyDB s body).execs =
        s.execs ++ calls ∧ ∀ c ∈ calls, c.query = OrdersWorker.insertSQL) := by
  by_cases h : (OrdersWorker.jsonUnmarshalOrderMessage body
      { OrderID := "", Quantity := 1 }).1 ≠ none ∨
      (OrdersWorker.jsonUnmarshalOrderMessage body
        { OrderID := "", Quantity := 1 }).2.OrderID = ""
  · rw [OrdersWorker.handleMessage_decode_error _ s body h]
    exact ⟨Or.inl rfl, [], by simp, by simp⟩
  · have hn : (OrdersWorker.jsonUnmarshalOrderMessage body
        { OrderID := "", Quantity := 1 }).1 = none := by
      by_contra hc
      exact h (Or.inl hc)
    have hid : (OrdersWorker.jsonUnmarshalOrderMessage body
        { OrderID := "", Quantity := 1 }).2.OrderID ≠ "" := fun hc => h (Or.inr hc)
    have hdec : OrdersWorker.jsonUnmarshalOrderMessage body { OrderID := "", Quantity := 1 } =
        (none, (OrdersWorker.jsonUnmarshalOrderMessage body
          { OrderID := "", Quantity := 1 }).2) := by
      rw [← hn]
    have ht := OrdersWorker.flakyExec_table s.db
      (OrdersWorker.jsonUnmarshalOrderMessage body { OrderID := "", Quantity := 1 }).2.OrderID
      (OrdersWorker.jsonUnmarshalOrderMessage body { OrderID := "", Quantity := 1 }).2.Quantity
    have hdb :
        ((OrdersWorker.flakyDB.ExecContext s.db OrdersWorker.insertSQL
          [.text (OrdersWorker.jsonUnmarshalOrderMessage body
              { OrderID := "", Quantity := 1 }).2.OrderID,
            .int (OrdersWorker.jsonUnmarshalOrderMessage body
              { OrderID := "", Quantity := 1 }).2.Quantity]).2.1 = s.db.1 ∨
          ∃ m, OrdersWorker.jsonUnmarshalOrderMessage body { OrderID := "", Quantity := 1 } =
              (none, m) ∧ m.OrderID ≠ "" ∧
            (OrdersWorker.flakyDB.ExecContext s.db OrdersWorker.insertSQL
              [.text (OrdersWorker.jsonUnmarshalOrderMessage body
                  { OrderID := "", Quantity := 1 }).2.OrderID,
                .int (OrdersWorker.jsonUnmarshalOrderMessage body
                  { OrderID := "", Quantity := 1 }).2.Quantity]).2.1 =
              s.db.1 ++ [{ order_id := m.OrderID, quantity := m.Quantity }]) := by
      rcases ht with ht | ht
      · exact Or.inl ht
      · exact Or.inr ⟨_, hdec, hid, ht⟩
    cases hins : (OrdersWorker.flakyDB.ExecContext s.db OrdersWorker.insertSQL
        [.text (OrdersWorker.jsonUnmarshalOrderMessage body
            { OrderID := "", Quantity := 1 }).2.OrderID,
          .int (OrdersWorker.jsonUnmarshalOrderMessage body
            { OrderID := "", Quantity := 1 }).2.Quantity]).1 with
    | none =>
      rw [OrdersWorker.handleMessage_inserted _ s body _ hdec hid hins]
      exact ⟨hdb, [_], rfl, by simp⟩
    | some e =>
      rw [OrdersWorker.handleMessage_insert_failed _ s body _ e hdec hid hins]
      exact ⟨hdb, [_], rfl, by simp⟩

/-- C9: on a keyed table that may also fail by its own schedule, for every finite
sequence of deliveries the table after the consumer loop is the table before followed
by added rows (no existing row is changed or removed, and only INSERT statements are
issued), and each added row has the `order_id` and quantity of a delivered message
that decoded without error to a non-empty `order_id`. Starting from an empty table,
every row of the table is such a row. -/
theorem OrdersWorker.records_come_from_decoded_messages
    (s : OrdersWorker.State (List OrdersWorker.OrderRecord × List Bool))
    (msgs : List OrdersWorker.Delivery) :
    (∃ added, (OrdersWorker.consumeLoop OrdersWorker.flakyDB s msgs).db.1 = s.db.1 ++ added ∧
      ∀ r ∈ added, ∃ d ∈ msgs, ∃ m,
        OrdersWorker.jsonUnmarshalOrderMessage d.Body { OrderID := "", Quantity := 1 } =
          (none, m) ∧ m.OrderID ≠ "" ∧
        r = { order_id := m.OrderID, quantity := m.Quantity }) ∧
    (∃ calls, (OrdersWorker.consumeLoop OrdersWorker.flakyDB s msgs).execs = s.execs ++ calls ∧
      ∀ c ∈ calls, c.query = "INSERT INTO orders (order_id, quantity) VALUES ($1, $2)") ∧
    (s.db.1 = [] →
      ∀ r ∈ (OrdersWorker.consumeLoop OrdersWorker.flakyDB s msgs).db.1, ∃ d ∈ msgs, ∃ m,
        OrdersWorker.jsonUnmarshalOrderMessage d.Body { OrderID := "", Quantity := 1 } =
          (none, m) ∧ m.OrderID ≠ "" ∧
        r.order_id = m.OrderID ∧ r.quantity = m.Quantity) := by
  have key : ∀ (msgs : List OrdersWorker.Delivery)
      (s : OrdersWorker.State (List OrdersWorker.OrderRecord × List Bool)),
      (∃ added, (OrdersWorker.consumeLoop OrdersWorker.flakyDB s msgs).db.1 = s.db.1 ++ added ∧
        ∀ r ∈ added, ∃ d ∈ msgs, ∃ m,
          OrdersWorker.jsonUnmarshalOrderMessage d.Body { OrderID := "", Quantity := 1 } =
            (none, m) ∧ m.OrderID ≠ "" ∧
          r = { order_id := m.OrderID, quantity := m.Quantity }) ∧
      (∃ calls, (OrdersWorker.consumeLoop OrdersWorker.flakyDB s msgs).execs =
          s.execs ++ calls ∧ ∀ c ∈ calls, c.query = OrdersWorker.insertSQL) := by
    intro msgs
    induction msgs with
    | nil =>
      intro s
      exact ⟨⟨[], by simp [OrdersWorker.consumeLoop], by simp⟩,
        ⟨[], by simp [OrdersWorker.consumeLoop], by simp⟩⟩
    | cons msg rest ih =>
      intro s
      have hstep : OrdersWorker.consumeLoop OrdersWorker.flakyDB s (msg :: rest) =
          OrdersWorker.consumeLoop OrdersWorker.flakyDB
            (OrdersWorker.handleMessage OrdersWorker.flakyDB s msg.Body) rest := rfl
      obtain ⟨⟨added, hadd, hprov⟩, ⟨calls, hcalls, hq⟩⟩ :=
        ih (OrdersWorker.handleMessage OrdersWorker.flakyDB s msg.Body)
      obtain ⟨h1, ⟨calls1, hcalls1, hq1⟩⟩ := OrdersWorker.handleMessage_flaky_step s msg.Body
      rw [hstep]
      constructor
      · rcases h1 with h1 | ⟨m, hm, hmid, h1⟩
        · refine ⟨added, by rw [hadd, h1], ?_⟩
          intro r hr
          obtain ⟨d, hd, m, hm⟩ := hprov r hr
          exact ⟨d, List.mem_cons_of_mem _ hd, m, hm⟩
        · refine ⟨{ order_id := m.OrderID, quantity := m.Quantity } :: added,
            by rw [hadd, h1]; simp, ?_⟩
          intro r hr
          rcases List.mem_cons.mp hr with hr | hr
          · exact ⟨msg, by simp, m, hm, hmid, hr⟩
          · obtain ⟨d, hd, m2, hm2⟩ := hprov r hr
            exact ⟨d, List.mem_cons_of_mem _ hd, m2, hm2⟩
      · refine ⟨calls1 ++ calls, by rw [hcalls, hcalls1]; simp, ?_⟩
        intro c hc
        rcases List.mem_append.mp hc with hc | hc
        · exact hq1 c hc
        · exact hq c hc
  obtain ⟨⟨added, hadd, hprov⟩, hcalls⟩ := key msgs s
  refine ⟨⟨added, hadd, hprov⟩, hcalls, ?_⟩
  intro hempty r hr
  rw [hadd, hempty, List.nil_append] at hr
  obtain ⟨d, hd, m, hm, hmid, hrm⟩ := hprov r hr
  exact ⟨d, hd, m, hm, hmid, by rw [hrm], by rw [hrm]⟩

/-- C10 as stated fails: on a broker that accepts every call, `newPublisher` followed by
`PublishOrder` for `A-100` returns success, and the calls issued are dial, open
channel, declare the durable queue, and one `PublishWithContext` whose publishing has
delivery mode 0, which is not `amqp.Persistent`; no `Confirm` call is among them. -/
theorem OrdersApi.successful_publish_not_persistent :
    (OrdersApi.newPublisher acceptingBroker apiStart "amqp://rabbitmq:5672/" "orders").1 =
      .ok ordersPublisher ∧
    (OrdersApi.PublishOrder acceptingBroker ordersPublisher
      (OrdersApi.newPublisher acceptingBroker apiStart "amqp://rabbitmq:5672/" "orders").2.amqp
      { OrderID := "A-100" }).1 = none ∧
    (OrdersApi.PublishOrder acceptingBroker ordersPublisher
      (OrdersApi.newPublisher acceptingBroker apiStart "amqp://rabbitmq:5672/" "orders").2.amqp
      { OrderID := "A-100" }).2.trace =
      [Amqp.Op.Dial "amqp://rabbitmq:5672/", Amqp.Op.Channel,
        Amqp.Op.QueueDeclare "orders" true false false false,
        Amqp.Op.PublishWithContext "" "orders" false false
          { ContentType := "application/json", DeliveryMode := 0,
            Body := "\x7b\"order_id\":\"A-100\"\x7d" }] ∧
    (0 : Nat) ≠ Amqp.Persistent := by
  refine ⟨rfl, rfl, by decide, by decide⟩

/-- C10, amended: a successful `newPublisher` has issued exactly dial, open channel and
a durable, non-auto-delete, non-exclusive declaration of the queue it keeps. Each
`PublishOrder` issues exactly one `PublishWithContext` call, on the default exchange
with that queue's name as routing key, whose publishing has content type
`application/json` and delivery mode 0 (not `amqp.Persistent`); `PublishOrder` returns
what that call returns, so success means the client call returned no error. No
`Confirm` call and no publish with deferred confirmation is ever issued. -/
theorem OrdersApi.publish_is_transient_and_unconfirmed {τ : Type} (B : Amqp.Broker τ)
    (s : OrdersApi.State τ) (amqpURL queueName : String) (p : OrdersApi.Publisher)
    (w : Amqp.World τ) (order : OrdersApi.OrderRequest) :
    (∀ s2, OrdersApi.newPublisher B s amqpURL queueName = (.ok p, s2) →
      p.q.Name = queueName ∧
      s2.amqp.trace = s.amqp.trace ++
        [Amqp.Op.Dial amqpURL, Amqp.Op.Channel,
          Amqp.Op.QueueDeclare queueName true false false false]) ∧
    (∃ msg : Amqp.Publishing,
      (OrdersApi.PublishOrder B p w order).2.trace =
        w.trace ++ [Amqp.Op.PublishWithContext "" p.q.Name false false msg] ∧
      (OrdersApi.PublishOrder B p w order).1 =
        (B w.st (Amqp.Op.PublishWithContext "" p.q.Name false false msg)).1 ∧
      msg.ContentType = "application/json" ∧
      msg.DeliveryMode = 0 ∧ msg.DeliveryMode ≠ Amqp.Persistent ∧
      OrdersApi.jsonMarshalOrderRequest order = .ok msg.Body) := by
  constructor
  · intro s2 h
    unfold OrdersApi.newPublisher at h
    simp only [Amqp.World.call] at h
    cases h1 : (B s.amqp.st (Amqp.Op.Dial amqpURL)).1 with
    | some e => simp [h1] at h
    | none =>
      simp only [h1] at h
      cases h2 : (B (B s.amqp.st (Amqp.Op.Dial amqpURL)).2 Amqp.Op.Channel).1 with
      | some e => simp [h2] at h
      | none =>
        simp only [h2] at h
        cases h3 : (B (B (B s.amqp.st (Amqp.Op.Dial amqpURL)).2 Amqp.Op.Channel).2
            (Amqp.Op.QueueDeclare queueName true false false false)).1 with
        | some e => simp [h3] at h
        | none =>
          simp only [h3, OrdersApi.logInfo, Prod.mk.injEq, Except.ok.injEq] at h
          obtain ⟨hp, hs⟩ := h
          subst hp
          subst hs
          simp
  · refine ⟨{ ContentType := "application/json",
              Body := String.mk ("\x7b\"order_id\":".toList ++
                GoJSON.appendString order.OrderID.toList ++ "\x7d".toList) },
      (OrdersApi.PublishOrder_spec B p w order).1,
      (OrdersApi.PublishOrder_spec B p w order).2, rfl, rfl,
      (by decide : (0 : Nat) ≠ Amqp.Persistent), rfl⟩

/-! ### The listing of orders, the schema, request counting and the round trip -/

/-- C11 fails on the code at a store without orders: a GET /orders whose query succeeds
with no rows is answered with status 200 and the body `null` followed by a newline,
which is the JSON value `null` and not the empty array; with one record the body is an
array with one element. -/
theorem OrdersApi.empty_listing_is_null :
    (OrdersApi.listOrders listingQuery []) = (none, none) ∧
    (OrdersApi.ordersHandler acceptingBroker ordersPublisher listingQuery [] {}
      { Method := "GET", Body := "" } apiStart).1.status = some 200 ∧
    (OrdersApi.ordersHandler acceptingBroker ordersPublisher listingQuery [] {}
      { Method := "GET", Body := "" } apiStart).1.body = "null\n" ∧
    (OrdersApi.ordersHandler acceptingBroker ordersPublisher listingQuery [] {}
      { Method := "GET", Body := "" } apiStart).1.body ≠ "[]\n" ∧
    GoJSON.parseDocument (OrdersApi.ordersHandler acceptingBroker ordersPublisher
      listingQuery [] {} { Method := "GET", Body := "" } apiStart).1.body.toList =
      some GoJSON.Value.null ∧
    (OrdersApi.ordersHandler acceptingBroker ordersPublisher listingQuery
      [{ OrderID := "A-100", CreatedAt := "2026-01-02T03:04:05Z" }] {}
      { Method := "GET", Body := "" } apiStart).1.body =
      "[\x7b\"OrderID\":\"A-100\",\"CreatedAt\":\"2026-01-02T03:04:05Z\"\x7d]\n" := by
  refine ⟨by decide, by decide, by decide, by decide, rfl, by decide⟩

/-- The loop of `listOrders` over rows that all scan: the rows are appended in order, and
the slice stays as it was only when there is no row. -/
theorem OrdersApi.listOrdersLoop_ok (rows : List OrdersApi.OrderRow)
    (out : Option (List OrdersApi.OrderRow)) :
    OrdersApi.listOrdersLoop (rows.map Except.ok) out =
      .ok (if rows = [] then out else some (out.getD [] ++ rows)) := by
  induction rows generalizing out with
  | nil => simp [OrdersApi.listOrdersLoop]
  | cons o rest ih =>
    rw [List.map_cons, OrdersApi.listOrdersLoop, ih]
    cases out <;> cases rest <;> simp [OrdersApi.goAppend]

/-- What `listOrders` returns when the query succeeds and every row scans: the nil slice
when there is no row, the rows otherwise. -/
theorem OrdersApi.listOrders_ok {σ : Type} (Q : Sql.Query σ OrdersApi.OrderRow) (db : σ)
    (rows : List OrdersApi.OrderRow)
    (hq : Q db OrdersApi.selectSQL = .ok { scans := rows.map Except.ok, err := none }) :
    OrdersApi.listOrders Q db = (if rows = [] then none else some rows, none) := by
  unfold OrdersApi.listOrders
  rw [hq]
  simp only [OrdersApi.listOrdersLoop_ok]
  cases rows <;> simp

/-- The response of GET /orders when the query succeeds and every row scans: status 200,
content type `application/json`, and as body `null` when there is no row, the array of
the rows' JSON texts otherwise, followed by a newline. -/
theorem OrdersApi.listing_response {τ σ : Type} (B : Amqp.Broker τ)
    (pub : OrdersApi.Publisher) (Q : Sql.Query σ OrdersApi.OrderRow) (db : σ)
    (w : OrdersApi.ResponseWriter) (r : OrdersApi.Request) (s : OrdersApi.State τ)
    (rows : List OrdersApi.OrderRow) (hm : r.Method = "GET") (hw : w.status = none)
    (hb : w.body = "")
    (hq : Q db OrdersApi.selectSQL = .ok { scans := rows.map Except.ok, err := none }) :
    (OrdersApi.ordersHandler B pub Q db w r s).1.status = some 200 ∧
    (OrdersApi.ordersHandler B pub Q db w r s).1.body =
      (if rows = [] then "null\n"
       else String.mk ('[' :: (OrdersApi.jsonElems (rows.map OrdersApi.jsonOrderRow) ++
         [']', '\n']))) := by
  unfold OrdersApi.ordersHandler OrdersApi.logAndCount OrdersApi.ordersList
  rw [if_pos hm, OrdersApi.listOrders_ok Q db rows hq]
  by_cases hr : rows = []
  · simp [hr, OrdersApi.jsonEncodeOrderRows, OrdersApi.ResponseWriter.Write,
      OrdersApi.ResponseWriter.WriteHeader, OrdersApi.ResponseWriter.HeaderSet, hw, hb,
      OrdersApi.StatusOK]
  · simp [hr, OrdersApi.jsonEncodeOrderRows, OrdersApi.ResponseWriter.Write,
      OrdersApi.ResponseWriter.WriteHeader, OrdersApi.ResponseWriter.HeaderSet, hw, hb,
      OrdersApi.StatusOK]

/-- C12 fails on the code: the table `initDB` creates has the columns `order_id` (primary
key) and `created_at` only, while the worker's INSERT names `order_id` and `quantity`.
On a store that keeps the columns of its tables, `initDB` on an empty database followed
by the worker handling `{"order_id":"A-100"}` ends in the `db_error` outcome with the
error that column `quantity` does not exist, and no row is stored. -/
theorem OrdersApi.initDB_table_has_no_quantity_column :
    Sql.parseStatement OrdersApi.createTableSQL =
      some (.createTableIfNotExists "orders"
        [{ name := "order_id", primaryKey := true, hasDefault := false },
         { name := "created_at", primaryKey := false, hasDefault := true }]) ∧
    Sql.parseStatement OrdersWorker.insertSQL =
      some (.insert "orders" ["order_id", "quantity"]) ∧
    (OrdersApi.initDB Sql.schemaConn apiStart [] "postgres://orders").1 = none ∧
    (OrdersApi.initDB Sql.schemaConn apiStart [] "postgres://orders").2.2 =
      [{ name := "orders"
         columns := [{ name := "order_id", primaryKey := true, hasDefault := false },
                     { name := "created_at", primaryKey := false, hasDefault := true }]
         rows := [] }] ∧
    (OrdersWorker.handleMessage Sql.schemaConn.toDB
      (workerStart (OrdersApi.initDB Sql.schemaConn apiStart [] "postgres://orders").2.2)
      "\x7b\"order_id\":\"A-100\"\x7d").log =
      [{ level := "", event := "order_insert_failed"
         fields := [("order_id", "A-100"),
           ("error", "pq: column \"quantity\" of relation \"orders\" does not exist")] }] ∧
    (OrdersWorker.handleMessage Sql.schemaConn.toDB
      (workerStart (OrdersApi.initDB Sql.schemaConn apiStart [] "postgres://orders").2.2)
      "\x7b\"order_id\":\"A-100\"\x7d").metrics.workerMessagesTotal ["db_error"] = 1 ∧
    (OrdersWorker.handleMessage Sql.schemaConn.toDB
      (workerStart (OrdersApi.initDB Sql.schemaConn apiStart [] "postgres://orders").2.2)
      "\x7b\"order_id\":\"A-100\"\x7d").metrics.workerMessagesTotal ["ok"] = 0 ∧
    (OrdersWorker.handleMessage Sql.schemaConn.toDB
      (workerStart (OrdersApi.initDB Sql.schemaConn apiStart [] "postgres://orders").2.2)
      "\x7b\"order_id\":\"A-100\"\x7d").db =
      (OrdersApi.initDB Sql.schemaConn apiStart [] "postgres://orders").2.2 := by
  refine ⟨by decide, by decide, by decide, by decide, by decide, by decide, by decide,
    by decide⟩

/-- The POST arm on a request that is rejected: what the closure returns. -/
theorem OrdersApi.ordersCreate_invalid {τ : Type} (B : Amqp.Broker τ)
    (pub : OrdersApi.Publisher) (w : OrdersApi.ResponseWriter) (r : OrdersApi.Request)
    (s : OrdersApi.State τ)
    (h : (OrdersApi.jsonDecodeOrderRequest r.Body { OrderID := "" }).1 ≠ none ∨
      (OrdersApi.jsonDecodeOrderRequest r.Body { OrderID := "" }).2.OrderID = "") :
    OrdersApi.ordersCreate B pub r w s =
      ((OrdersApi.StatusBadRequest,
          (OrdersApi.jsonDecodeOrderRequest r.Body { OrderID := "" }).1),
        (w.WriteHeader OrdersApi.StatusBadRequest).Write "\x7b\"error\":\"invalid payload\"\x7d",
        OrdersApi.logError s "order_invalid_payload"
          [("error", (OrdersApi.jsonDecodeOrderRequest r.Body { OrderID := "" }).1.text)]) := by
  unfold OrdersApi.ordersCreate
  simp only [if_pos h]

/-- The POST arm on a valid request whose publish fails: what the closure returns. -/
theorem OrdersApi.ordersCreate_publish_failed {τ : Type} (B : Amqp.Broker τ)
    (pub : OrdersApi.Publisher) (w : OrdersApi.ResponseWriter) (r : OrdersApi.Request)
    (s : OrdersApi.State τ) (e : String)
    (h : ¬ ((OrdersApi.jsonDecodeOrderRequest r.Body { OrderID := "" }).1 ≠ none ∨
      (OrdersApi.jsonDecodeOrderRequest r.Body { OrderID := "" }).2.OrderID = ""))
    (hpub : (OrdersApi.PublishOrder B pub s.amqp
      (OrdersApi.jsonDecodeOrderRequest r.Body { OrderID := "" }).2).1 = some e) :
    OrdersApi.ordersCreate B pub r w s =
      ((OrdersApi.StatusInternalServerError, some e),
        ((w.WriteHeader OrdersApi.StatusInternalServerError).Write
          "\x7b\"error\":\"publish failed\"\x7d"),
        OrdersApi.logError
          { s with
            amqp := (OrdersApi.PublishOrder B pub s.amqp
              (OrdersApi.jsonDecodeOrderRequest r.Body { OrderID := "" }).2).2
            metrics :=
              { s.metrics with
                ordersPublishFailuresTotal := s.metrics.ordersPublishFailuresTotal + 1 } }
          "order_publish_failed"
          [("order_id", (OrdersApi.jsonDecodeOrderRequest r.Body { OrderID := "" }).2.OrderID),
            ("error", e)]) := by
  unfold OrdersApi.ordersCreate
  simp only [if_neg h, hpub]

/-- The POST arm on a valid request whose publish succeeds: what the closure returns. -/
theorem OrdersApi.ordersCreate_accepted {τ : Type} (B : Amqp.Broker τ)
    (pub : OrdersApi.Publisher) (w : OrdersApi.ResponseWriter) (r : OrdersApi.Request)
    (s : OrdersApi.State τ)
    (h : ¬ ((OrdersApi.jsonDecodeOrderRequest r.Body { OrderID := "" }).1 ≠ none ∨
      (OrdersApi.jsonDecodeOrderRequest r.Body { OrderID := "" }).2.OrderID = ""))
    (hpub : (OrdersApi.PublishOrder B pub s.amqp
      (OrdersApi.jsonDecodeOrderRequest r.Body { OrderID := "" }).2).1 = none) :
    OrdersApi.ordersCreate B pub r w s =
      ((OrdersApi.StatusAccepted, none),
        (((w.HeaderSet "Content-Type" "application/json").WriteHeader
          OrdersApi.StatusAccepted).Write "\x7b\"status\":\"accepted\"\x7d"),
        OrdersApi.logInfo
          { s with
            amqp := (OrdersApi.PublishOrder B pub s.amqp
              (OrdersApi.jsonDecodeOrderRequest r.Body { OrderID := "" }).2).2
            metrics :=
              { s.metrics with
                ordersPublishedTotal := s.metrics.ordersPublishedTotal + 1 } }
          "order_published"
          [("order_id",
            (OrdersApi.jsonDecodeOrderRequest r.Body { OrderID := "" }).2.OrderID)]) := by
  unfold OrdersApi.ordersCreate
  simp only [if_neg h, hpub]

/-- C13: every POST /orders request on a fresh response writer increments
`orders_http_requests_total` exactly once, for the labels handler `orders_create`,
method `POST` and the code that is the status written on the response (no other label
tuple moves), and counts exactly one of three outcomes: accepted (202,
`ordersPublishedTotal` +1), invalid input (400, both publish counters unchanged),
publish failed (500, `ordersPublishFailuresTotal` +1). -/
theorem OrdersApi.post_request_counted_once {τ σ : Type} (B : Amqp.Broker τ)
    (pub : OrdersApi.Publisher) (Q : Sql.Query σ OrdersApi.OrderRow) (db : σ)
    (w : OrdersApi.ResponseWriter) (r : OrdersApi.Request) (s : OrdersApi.State τ)
    (hm : r.Method = "POST") (hw : w.status = none) :
    ∃ code : Nat,
      (OrdersApi.ordersHandler B pub Q db w r s).1.status = some code ∧
      (OrdersApi.ordersHandler B pub Q db w r s).2.metrics.httpRequestsTotal =
        s.metrics.httpRequestsTotal.Inc ["orders_create", "POST", toString code] ∧
      (OrdersApi.ordersHandler B pub Q db w r s).2.metrics.httpRequestsTotal
          ["orders_create", "POST", toString code] =
        s.metrics.httpRequestsTotal ["orders_create", "POST", toString code] + 1 ∧
      (∀ l, l ≠ ["orders_create", "POST", toString code] →
        (OrdersApi.ordersHandler B pub Q db w r s).2.metrics.httpRequestsTotal l =
          s.metrics.httpRequestsTotal l) ∧
      ((code = 202 ∧
          (OrdersApi.jsonDecodeOrderRequest r.Body { OrderID := "" }).1 = none ∧
          (OrdersApi.jsonDecodeOrderRequest r.Body { OrderID := "" }).2.OrderID ≠ "" ∧
          (OrdersApi.PublishOrder B pub s.amqp
            (OrdersApi.jsonDecodeOrderRequest r.Body { OrderID := "" }).2).1 = none ∧
          (OrdersApi.ordersHandler B pub Q db w r s).2.metrics.ordersPublishedTotal =
            s.metrics.ordersPublishedTotal + 1 ∧
          (OrdersApi.ordersHandler B pub Q db w r s).2.metrics.ordersPublishFailuresTotal =
            s.metrics.ordersPublishFailuresTotal) ∨
        (code = 400 ∧
          ((OrdersApi.jsonDecodeOrderRequest r.Body { OrderID := "" }).1 ≠ none ∨
            (OrdersApi.jsonDecodeOrderRequest r.Body { OrderID := "" }).2.OrderID = "") ∧
          (OrdersApi.ordersHandler B pub Q db w r s).2.metrics.ordersPublishedTotal =
            s.metrics.ordersPublishedTotal ∧
          (OrdersApi.ordersHandler B pub Q db w r s).2.metrics.ordersPublishFailuresTotal =
            s.metrics.ordersPublishFailuresTotal) ∨
        (code = 500 ∧
          (OrdersApi.jsonDecodeOrderRequest r.Body { OrderID := "" }).1 = none ∧
          (OrdersApi.jsonDecodeOrderRequest r.Body { OrderID := "" }).2.OrderID ≠ "" ∧
          (OrdersApi.PublishOrder B pub s.amqp
            (OrdersApi.jsonDecodeOrderRequest r.Body { OrderID := "" }).2).1 ≠ none ∧
          (OrdersApi.ordersHandler B pub Q db w r s).2.metrics.ordersPublishedTotal =
            s.metrics.ordersPublishedTotal ∧
          (OrdersApi.ordersHandler B pub Q db w r s).2.metrics.ordersPublishFailuresTotal =
            s.metrics.ordersPublishFailuresTotal + 1)) := by
  have hget : ¬ r.Method = "GET" := by
    rw [hm]
    decide
  have hH : OrdersApi.ordersHandler B pub Q db w r s =
      OrdersApi.logAndCount w r "orders_create" (OrdersApi.ordersCreate B pub r) s := by
    unfold OrdersApi.ordersHandler
    rw [if_neg hget, if_pos hm]
  rw [hH]
  unfold OrdersApi.logAndCount
  by_cases h : (OrdersApi.jsonDecodeOrderRequest r.Body { OrderID := "" }).1 ≠ none ∨
      (OrdersApi.jsonDecodeOrderRequest r.Body { OrderID := "" }).2.OrderID = ""
  · refine ⟨400, ?_⟩
    rw [OrdersApi.ordersCreate_invalid B pub w r s h]
    have h400 : toString OrdersApi.StatusBadRequest = toString (400 : Nat) := rfl
    cases hE : (OrdersApi.jsonDecodeOrderRequest r.Body { OrderID := "" }).1 with
    | none =>
      simp [OrdersApi.logError, OrdersApi.ResponseWriter.Write,
        OrdersApi.ResponseWriter.WriteHeader, hw, hm, h400, CounterVec.Inc,
        OrdersApi.StatusBadRequest]
      rcases h with h | h
      · exact absurd hE h
      · exact h
    | some e =>
      simp [OrdersApi.logError, OrdersApi.ResponseWriter.Write,
        OrdersApi.ResponseWriter.WriteHeader, hw, hm, h400, CounterVec.Inc,
        OrdersApi.StatusBadRequest]
  · have hn : (OrdersApi.jsonDecodeOrderRequest r.Body { OrderID := "" }).1 = none := by
      by_contra hc
      exact h (Or.inl hc)
    have hid : (OrdersApi.jsonDecodeOrderRequest r.Body { OrderID := "" }).2.OrderID ≠ "" :=
      fun hc => h (Or.inr hc)
    cases hp : (OrdersApi.PublishOrder B pub s.amqp
        (OrdersApi.jsonDecodeOrderRequest r.Body { OrderID := "" }).2).1 with
    | none =>
      refine ⟨202, ?_⟩
      rw [OrdersApi.ordersCreate_accepted B pub w r s h hp]
      have h202 : toString OrdersApi.StatusAccepted = toString (202 : Nat) := rfl
      simp [OrdersApi.logInfo, OrdersApi.ResponseWriter.Write,
        OrdersApi.ResponseWriter.WriteHeader, OrdersApi.ResponseWriter.HeaderSet, hw, hm,
        h202, CounterVec.Inc, OrdersApi.StatusAccepted, hn, hid]
    | some e =>
      refine ⟨500, ?_⟩
      rw [OrdersApi.ordersCreate_publish_failed B pub w r s e h hp]
      have h500 : toString OrdersApi.StatusInternalServerError = toString (500 : Nat) := rfl
      simp [OrdersApi.logError, OrdersApi.ResponseWriter.Write,
        OrdersApi.ResponseWriter.WriteHeader, hw, hm, h500, CounterVec.Inc,
        OrdersApi.StatusInternalServerError, hn, hid]

/-- Witness for C13 at the request `{"order_id":"A-100"}` on an accepting broker: the
code is 202, the counter for `orders_create`, `POST`, `202` is 1 and
`ordersPublishedTotal` is 1. -/
theorem OrdersApi.post_request_counted_once_witness :
    ({ Method := "POST", Body := "\x7b\"order_id\":\"A-100\"\x7d" } :
      OrdersApi.Request).Method = "POST" ∧
    ∃ code : Nat,
      code = 202 ∧
      (OrdersApi.ordersHandler acceptingBroker ordersPublisher listingQuery [] {}
        { Method := "POST", Body := "\x7b\"order_id\":\"A-100\"\x7d" } apiStart).1.status =
        some code ∧
      (OrdersApi.ordersHandler acceptingBroker ordersPublisher listingQuery [] {}
        { Method := "POST", Body := "\x7b\"order_id\":\"A-100\"\x7d" }
        apiStart).2.metrics.httpRequestsTotal ["orders_create", "POST", "202"] = 1 ∧
      (OrdersApi.ordersHandler acceptingBroker ordersPublisher listingQuery [] {}
        { Method := "POST", Body := "\x7b\"order_id\":\"A-100\"\x7d" }
        apiStart).2.metrics.ordersPublishedTotal = 1 := by
  refine ⟨rfl, ?_⟩
  obtain ⟨code, h1, _, h3, _, _⟩ :=
    OrdersApi.post_request_counted_once acceptingBroker ordersPublisher listingQuery [] {}
      { Method := "POST", Body := "\x7b\"order_id\":\"A-100\"\x7d" } apiStart rfl rfl
  have hs : (OrdersApi.ordersHandler acceptingBroker ordersPublisher listingQuery [] {}
      { Method := "POST", Body := "\x7b\"order_id\":\"A-100\"\x7d" } apiStart).1.status =
      some 202 := by decide
  have hc : code = 202 := by
    rw [hs] at h1
    exact (Option.some.inj h1).symm
  subst hc
  exact ⟨202, rfl, hs, h3, by decide⟩

/-- The worker decodes the marshalled form of an order request to the message with the
same `order_id` and the default quantity 1. -/
theorem OrdersWorker.unmarshal_marshalled (id : String) :
    OrdersWorker.jsonUnmarshalOrderMessage
      (String.mk ("\x7b\"order_id\":".toList ++ GoJSON.appendString id.toList ++
        "\x7d".toList)) { OrderID := "", Quantity := 1 } =
      (none, { OrderID := id, Quantity := 1 }) := by
  unfold OrdersWorker.jsonUnmarshalOrderMessage
  have hp : GoJSON.parseDocument (String.mk ("\x7b\"order_id\":".toList ++
      GoJSON.appendString id.toList ++ "\x7d".toList)).toList =
      some (GoJSON.Value.object [("order_id".toList, GoJSON.Value.string id.toList)]) :=
    GoJSON.parseDocument_marshalled id.toList
  have hk : GoJSON.keyMatches "order_id".toList "order_id" = true := by decide
  simp only [hp, OrdersWorker.OrderMessage.unmarshalValue, List.foldl_cons, List.foldl_nil,
    OrdersWorker.OrderMessage.setMember, hk, if_true, GoJSON.storeString, saveError]
  rfl

/-- C14: for every non-empty `order_id`, the body that `PublishOrder` serialises from
`OrderRequest{order_id}` and hands to the broker decodes at the worker, without error,
to that `order_id` with quantity 1; `handleMessage` on it does not take the
`decode_error` branch (that counter keeps its value) and issues exactly one INSERT, with
that `order_id` and quantity 1. -/
theorem OrdersWorker.published_body_round_trip {τ σ : Type} (B : Amqp.Broker τ)
    (p : OrdersApi.Publisher) (w : Amqp.World τ) (D : Sql.DB σ) (s : OrdersWorker.State σ)
    (order : OrdersApi.OrderRequest) (hid : order.OrderID ≠ "") :
    ∃ body : String,
      OrdersApi.jsonMarshalOrderRequest order = .ok body ∧
      (OrdersApi.PublishOrder B p w order).2.trace =
        w.trace ++ [Amqp.Op.PublishWithContext "" p.q.Name false false
          { ContentType := "application/json", DeliveryMode := 0, Body := body }] ∧
      OrdersWorker.jsonUnmarshalOrderMessage body { OrderID := "", Quantity := 1 } =
        (none, { OrderID := order.OrderID, Quantity := 1 }) ∧
      (OrdersWorker.handleMessage D s body).execs =
        s.execs ++ [{ query := "INSERT INTO orders (order_id, quantity) VALUES ($1, $2)",
                      args := [.text order.OrderID, .int 1] }] ∧
      (OrdersWorker.handleMessage D s body).metrics.workerMessagesTotal ["decode_error"] =
        s.metrics.workerMessagesTotal ["decode_error"] := by
  refine ⟨String.mk ("\x7b\"order_id\":".toList ++
    GoJSON.appendString order.OrderID.toList ++ "\x7d".toList), rfl,
    (OrdersApi.PublishOrder_spec B p w order).1,
    OrdersWorker.unmarshal_marshalled order.OrderID, ?_⟩
  have hdec := OrdersWorker.unmarshal_marshalled order.OrderID
  cases hins : (D.ExecContext s.db OrdersWorker.insertSQL
      [.text order.OrderID, .int 1]).1 with
  | none =>
    rw [OrdersWorker.handleMessage_inserted D s _
      { OrderID := order.OrderID, Quantity := 1 } hdec hid hins]
    exact ⟨rfl, by simp [CounterVec.Inc]⟩
  | some e =>
    rw [OrdersWorker.handleMessage_insert_failed D s _
      { OrderID := order.OrderID, Quantity := 1 } e hdec hid hins]
    exact ⟨rfl, by simp [CounterVec.Inc]⟩

/-- Witness for C14 at `order_id` `A-100` on an accepting broker and an empty keyed
table: the published body is `{"order_id":"A-100"}` and the worker stores `A-100`
with quantity 1. -/
theorem OrdersWorker.published_body_round_trip_witness :
    ({ OrderID := "A-100" } : OrdersApi.OrderRequest).OrderID ≠ "" ∧
    (∃ body : String,
      OrdersApi.jsonMarshalOrderRequest { OrderID := "A-100" } = .ok body ∧
      (OrdersApi.PublishOrder acceptingBroker ordersPublisher apiStart.amqp
        { OrderID := "A-100" }).2.trace =
        apiStart.amqp.trace ++ [Amqp.Op.PublishWithContext "" ordersPublisher.q.Name false false
          { ContentType := "application/json", DeliveryMode := 0, Body := body }] ∧
      OrdersWorker.jsonUnmarshalOrderMessage body { OrderID := "", Quantity := 1 } =
        (none, { OrderID := "A-100", Quantity := 1 }) ∧
      (OrdersWorker.handleMessage OrdersWorker.tableDB (workerStart []) body).execs =
        (workerStart ([] : List OrdersWorker.OrderRecord)).execs ++
          [{ query := "INSERT INTO orders (order_id, quantity) VALUES ($1, $2)",
             args := [.text "A-100", .int 1] }] ∧
      (OrdersWorker.handleMessage OrdersWorker.tableDB (workerStart [])
        body).metrics.workerMessagesTotal ["decode_error"] =
        (workerStart ([] : List OrdersWorker.OrderRecord)).metrics.workerMessagesTotal
          ["decode_error"]) ∧
    (OrdersWorker.handleMessage OrdersWorker.tableDB (workerStart [])
      "\x7b\"order_id\":\"A-100\"\x7d").db = [{ order_id := "A-100", quantity := 1 }] :=
  ⟨by decide,
    OrdersWorker.published_body_round_trip acceptingBroker ordersPublisher apiStart.amqp
      OrdersWorker.tableDB (workerStart []) { OrderID := "A-100" } (by decide),
    by decide⟩
